import Mathlib

set_option maxHeartbeats 1000000

/-!
Shallow embedding of the data-migration layer of the `novaera` ruleset package:
`ActivatedEffectTemplate.migrateData` (src/module/data/item/templates/activated-effect.mjs)
and the senses migration of `CreatureTemplate` (src/module/data/actor/templates/creature.mjs).

Modelling conventions:
* JavaScript values are modelled by `JVal`; plain objects are ordered association
  lists (`Obj`) keyed by property name, as JS objects preserve insertion order.
* A missing property is an absent key; the JS value `undefined` arising from a
  property read is `Option.none` at the expression level.
* JS numbers are modelled as integers (`Int`).  Every value these migrations read
  or write is integral; the single fractional computation in them,
  `Number#toNearest(0.5)`, is embedded exactly over `Rat` (`toNearestHalf`) and is
  only ever applied to integer inputs.
* Fallible statements live in `Except Unit`; `.error ()` is a thrown `TypeError`
  (property access on `undefined`/`null`, or — the files are ES modules, hence
  strict mode — assignment to a property of a primitive).
* Host helpers the source calls (`Number.isNumeric`, `Number#toNearest`,
  `String#trim`, `String#split`, `String#toLowerCase`, `String#match`) are not in
  the repository; they are modelled from their host semantics, with
  string-to-number conversion restricted to optionally signed decimal integer
  literals (the only numeric spellings the migrated data shapes use).
* `CONFIG.DND5E.senses` is host configuration, not repository code; it is
  modelled as a parameter `cfg : List String` listing its keys.
-/

/-- JavaScript runtime values, as far as the migrations observe them. -/
inductive JVal where
  | null
  | num (n : Int)
  | str (s : String)
  | bool (b : Bool)
  | obj (fields : List (String × JVal))

/-- A JS plain object: ordered association list of properties. -/
abbrev Obj := List (String × JVal)

/-- Property lookup on an object. -/
def olookup : Obj → String → Option JVal
  | [], _ => none
  | (k', v) :: t, k => if k' = k then some v else olookup t k

/-- Property write on an object: replaces in place if the key is present,
otherwise appends (JS insertion order). -/
def oset : Obj → String → JVal → Obj
  | [], k, v => [(k, v)]
  | (k', w) :: t, k, v => if k' = k then (k, v) :: t else (k', w) :: oset t k v

/-- A sequence of property writes, performed in order. -/
def osetList (o : Obj) (ws : List (String × JVal)) : Obj :=
  ws.foldl (fun a p => oset a p.1 p.2) o

/-- Property read `v[k]`: throws on `null` (TypeError), yields `undefined` on
other primitives, looks up on objects. -/
def pget : JVal → String → Except Unit (Option JVal)
  | .null, _ => .error ()
  | .obj fs, k => .ok (olookup fs k)
  | _, _ => .ok none

/-- Optional-chained read `v?.k` where `v` is itself the result of a property
read (`none` = undefined). -/
def optChain : Option JVal → String → Option JVal
  | none, _ => none
  | some .null, _ => none
  | some (.obj fs), k => olookup fs k
  | some _, _ => none

/-- The value of `source.k1?.k2`. -/
def optView (s : Obj) (k1 k2 : String) : Option JVal :=
  optChain (olookup s k1) k2

/-- The value of `source.k1?.k2?.k3` (used in theorem statements). -/
def optView3 (s : Obj) (k1 k2 k3 : String) : Option JVal :=
  optChain (optView s k1 k2) k3

/-- The read `source.k1.k2`: throws if `source.k1` is undefined or null. -/
def readPath (s : Obj) (k1 k2 : String) : Except Unit (Option JVal) :=
  match olookup s k1 with
  | none => .error ()
  | some v => pget v k2

/-- The assignment `source.k1.k2 = x`: throws unless `source.k1` is an object
(reading a property of `undefined`/`null` throws; strict-mode assignment to a
property of a primitive throws). -/
def setPath (s : Obj) (k1 k2 : String) (x : JVal) : Except Unit Obj :=
  match olookup s k1 with
  | some (.obj fs) => .ok (oset s k1 (.obj (oset fs k2 x)))
  | _ => .error ()

/-- The assignment `source.k1.k2.k3 = x` (throws unless both containers are objects). -/
def setPath3 (s : Obj) (k1 k2 k3 : String) (x : JVal) : Except Unit Obj :=
  match olookup s k1 with
  | some (.obj fs) =>
    match olookup fs k2 with
    | some (.obj gs) => .ok (oset s k1 (.obj (oset fs k2 (.obj (oset gs k3 x)))))
    | _ => .error ()
  | _ => .error ()

/-- The statement `if (cond(source.k1?.k2)) source.k1.k2 = w`, with the condition
and replacement packaged as a partial function `f` (`f v = some w` means the
condition holds of the read value `v` and `w` is assigned). -/
def updOpt (s : Obj) (k1 k2 : String) (f : Option JVal → Option JVal) : Except Unit Obj :=
  match f (optView s k1 k2) with
  | none => .ok s
  | some w => setPath s k1 k2 w

/-- Same, but the read is not optional-chained (`source.k1.k2`), so it throws
when `source.k1` is undefined or null. -/
def updStrict (s : Obj) (k1 k2 : String) (f : Option JVal → Option JVal) : Except Unit Obj := do
  let v ← readPath s k1 k2
  match f v with
  | none => pure s
  | some w => setPath s k1 k2 w

/-! ### Host string and number helpers -/

/-- Whitespace as matched by the regex class `\s` and `String#trim` (ASCII part). -/
def isWsChar (c : Char) : Bool := c = ' ' || c = '\t' || c = '\n' || c = '\r'

/-- The regex class `[0-9]`. -/
def isDigitChar (c : Char) : Bool := '0' ≤ c && c ≤ '9'

/-- The regex class `[A-z]` (ASCII 65–122 — a quirk of the source pattern,
kept as written). -/
def isLetterAz (c : Char) : Bool := 'A' ≤ c && c ≤ 'z'

/-- ASCII lowercasing of one character (`String#toLowerCase` on the data at hand). -/
def lowerChar (c : Char) : Char :=
  if 'A' ≤ c && c ≤ 'Z' then Char.ofNat (c.toNat + 32) else c

/-- `String#toLowerCase`. -/
def jsToLower (s : String) : String := String.mk (s.data.map lowerChar)

/-- `String#trim`. -/
def jsTrim (s : String) : String :=
  String.mk (((s.data.dropWhile isWsChar).reverse.dropWhile isWsChar).reverse)

/-- `String#split` with a one-character separator. -/
def splitOnChar (sep : Char) : List Char → List (List Char)
  | [] => [[]]
  | c :: t =>
    match splitOnChar sep t with
    | [] => [[]]
    | a :: as => if c = sep then [] :: a :: as else (c :: a) :: as

/-- `s.split(sep)` for a one-character separator. -/
def jsSplit (sep : Char) (s : String) : List String :=
  (splitOnChar sep s.data).map (fun l => String.mk l)

/-- Accumulating decimal value of a digit string; `none` on a non-digit. -/
def digitsToNatAux (acc : Nat) : List Char → Option Nat
  | [] => some acc
  | c :: t => if isDigitChar c then digitsToNatAux (acc * 10 + (c.toNat - 48)) t else none

/-- Value of a nonempty all-digit string. -/
def digitsVal (l : List Char) : Option Nat :=
  match l with
  | [] => none
  | _ :: _ => digitsToNatAux 0 l

/-- Modelled from the host's `Number(string)` conversion, restricted to optionally
signed decimal integer literals (see the module docstring). -/
def strToIntList : List Char → Option Int
  | [] => none
  | c :: rest =>
    if c = '-' then (digitsVal rest).map (fun n : Nat => -(n : Int))
    else if c = '+' then (digitsVal rest).map (fun n : Nat => (n : Int))
    else (digitsVal (c :: rest)).map (fun n : Nat => (n : Int))

/-- See `strToIntList` for the accepted shapes. -/
def strToInt (s : String) : Option Int := strToIntList s.data

/-- Modelled from the host's `Number.isNumeric` helper (true when `Number(s)`
yields an actual number; `""` is rejected). -/
def isNumericStr (s : String) : Bool := (strToInt s).isSome

/-- `Number(s)` on a string accepted by `isNumericStr`. -/
def numOf (s : String) : Int := (strToInt s).getD 0

/-- Decimal digits of `n`, most significant first (fuel-driven structural
recursion; the first argument only bounds the digit count, `n` itself always
suffices as fuel). -/
def natToDigitsAux : Nat → Nat → List Char
  | _, 0 => []
  | 0, _ + 1 => []
  | f + 1, n + 1 => natToDigitsAux f ((n + 1) / 10) ++ [Nat.digitChar ((n + 1) % 10)]

/-- Decimal rendering of a natural number. -/
def jsNatToString (n : Nat) : String :=
  if n = 0 then "0" else String.mk (natToDigitsAux n n)

/-- `Number#toString()` (base 10) on an integral value. -/
def jsIntToString (i : Int) : String :=
  if i < 0 then "-" ++ jsNatToString i.natAbs else jsNatToString i.natAbs

/-- Embeds foundry's `Number#toNearest(0.5)`: `Math.round(x / 0.5) * 0.5`,
computed exactly over `Rat` (`round` is `⌊x + 1/2⌋`, which agrees with JS
`Math.round`). -/
def toNearestHalf (q : Rat) : Rat := round (q / (1 / 2 : Rat)) * (1 / 2 : Rat)

/-- The value stored for a matched sense term: `Number(match[2]).toNearest(0.5)`.
`match[2]` is a digit string, so the argument is a natural number, on which
rounding to the nearest half is the identity: `toNearestHalf_natCast` below
proves `toNearestHalf (n : Rat) = (n : Rat)`, so the stored value is `n` itself. -/
def sensesValue (n : Nat) : Int := n

/-! ### ActivatedEffectTemplate (src/module/data/item/templates/activated-effect.mjs) -/

namespace ActivatedEffectTemplate

/-- The rewrite applied to `uses.max` and `duration.value` by
`#migrateFormulaFields`: `0`, `"0"` and `null` become `""`; any other number
becomes its decimal string; anything else is untouched. -/
def formulaFix : Option JVal → Option JVal
  | some (.num n) => if n = 0 then some (.str "") else some (.str (jsIntToString n))
  | some (.str t) => if t = "0" then some (.str "") else none
  | some .null => some (.str "")
  | _ => none

/-- `if (v === null) … = ""` (applied to `range.units`, `target.units`,
`target.type`, `consume.type`). -/
def nullToEmpty : Option JVal → Option JVal
  | some .null => some (.str "")
  | _ => none

/-- `if (v === "") … = null` (applied to `target.value`). -/
def blankToNull : Option JVal → Option JVal
  | some (.str t) => if t = "" then some .null else none
  | _ => none

/-- On a string: `""` becomes `null`, a numeric string becomes the number
(applied to `range.long`, `uses.value`, `consume.amount`). -/
def strNumFix : Option JVal → Option JVal
  | some (.str t) =>
    if t = "" then some .null
    else if isNumericStr t then some (.num (numOf t)) else none
  | _ => none

/-- `if (v === undefined) … = ""` (applied to `uses.recovery`). -/
def undefToEmpty : Option JVal → Option JVal
  | none => some (.str "")
  | _ => none

/-- `#migrateFormulaFields`. -/
def migrateFormulaFields (source : Obj) : Except Unit Obj := do
  let s1 ← updOpt source "uses" "max" formulaFix
  updOpt s1 "duration" "value" formulaFix

/-- The tail of `#migrateRanges` from the `typeof source.range.value` check on:
a non-string value returns unchanged; `""` becomes `null`; otherwise the string
is split on `"/"` and the numeric halves are written to `range.value` and
`range.long` (`v` is the value just read from `source.range.value`). -/
def rangeValueFix (s2 : Obj) (v : Option JVal) : Except Unit Obj :=
  match v with
  | some (.str t) =>
    if t = "" then setPath s2 "range" "value" JVal.null
    else
      let parts := jsSplit '/' t
      let a := parts.headD ""
      (if isNumericStr a then setPath s2 "range" "value" (.num (numOf a)) else pure s2) >>=
        fun s3 =>
          match parts[1]? with
          | some b =>
            if isNumericStr b then setPath s3 "range" "long" (.num (numOf b)) else pure s3
          | none => pure s3
  | _ => pure s2

/-- `#migrateRanges` (the early `return` statements of the source are rendered as
`if`/`else` and the trailing value block as `rangeValueFix`). -/
def migrateRanges (source : Obj) : Except Unit Obj :=
  if (olookup source "range").isNone then .ok source
  else do
    let s1 ← updStrict source "range" "units" nullToEmpty
    let s2 ← updStrict s1 "range" "long" strNumFix
    let v ← readPath s2 "range" "value"
    rangeValueFix s2 v

/-- `#migrateTargets`. -/
def migrateTargets (source : Obj) : Except Unit Obj := do
  let s1 ← updOpt source "target" "value" blankToNull
  let s2 ← updOpt s1 "target" "units" nullToEmpty
  updOpt s2 "target" "type" nullToEmpty

/-- `#migrateUses`. -/
def migrateUses (source : Obj) : Except Unit Obj :=
  if (olookup source "uses").isNone then .ok source
  else do
    let s1 ← updStrict source "uses" "value" strNumFix
    updStrict s1 "uses" "recovery" undefToEmpty

/-- `#migrateConsume`. -/
def migrateConsume (source : Obj) : Except Unit Obj :=
  if (olookup source "consume").isNone then .ok source
  else do
    let s1 ← updStrict source "consume" "type" nullToEmpty
    updStrict s1 "consume" "amount" strNumFix

/-- `ActivatedEffectTemplate.migrateData`. -/
def migrateData (source : Obj) : Except Unit Obj := do
  let s1 ← migrateFormulaFields source
  let s2 ← migrateRanges s1
  let s3 ← migrateTargets s2
  let s4 ← migrateUses s3
  migrateConsume s4

end ActivatedEffectTemplate

/-! ### CreatureTemplate senses migration (src/module/data/actor/templates/creature.mjs) -/

/-- Leftmost match of the pattern `([A-z]+)\s?([0-9]+)\s?([A-z]+)?` against a
character list, returning the first two capture groups (the name and the digit
string).  The first argument is structural fuel bounding the number of letter
runs scanned; each step drops past a nonempty letter run, so `l.length` always
suffices and `findMatch` below supplies it. -/
def findMatchAux : Nat → List Char → Option (String × String)
  | _, [] => none
  | 0, _ :: _ => none
  | f + 1, c :: t =>
    let l1 := (c :: t).dropWhile (fun d => !isLetterAz d)
    match l1 with
    | [] => none
    | _ :: _ =>
      let ltrs := l1.takeWhile isLetterAz
      let after := l1.dropWhile isLetterAz
      let after2 := match after with
        | w :: t' => if isWsChar w then t' else after
        | [] => []
      let digs := after2.takeWhile isDigitChar
      match digs with
      | [] => findMatchAux f after
      | _ :: _ => some (String.mk ltrs, String.mk digs)

/-- `s.match(/([A-z]+)\s?([0-9]+)\s?([A-z]+)?/)`, reduced to the two used groups. -/
def findMatch (l : List Char) : Option (String × String) := findMatchAux l.length l

namespace CreatureTemplate

/-- The per-term work of the senses loop: trim, match the pattern, lowercase the
name, test membership in the configured sense types; yields the property write
this term performs on `attributes.senses` (if any). -/
def senseWrite (cfg : List String) (term : String) : Option (String × JVal) :=
  match findMatch (jsTrim term).data with
  | none => none
  | some (name, digs) =>
    let type := jsToLower name
    if cfg.contains type then some (type, .num (sensesValue ((digitsVal digs.data).getD 0)))
    else none

/-- One iteration of the `for … of original.split(",")` loop, threading the
source object and the `wasMatched` flag. -/
def sensesStep (cfg : List String) (acc : Except Unit (Obj × Bool)) (term : String) :
    Except Unit (Obj × Bool) :=
  match acc with
  | .error e => .error e
  | .ok (s, wm) =>
    match senseWrite cfg term with
    | none => .ok (s, wm)
    | some (k, v) =>
      match setPath3 s "attributes" "senses" k v with
      | .error e => .error e
      | .ok s2 => .ok (s2, true)

/-- The two `??=` statements of the senses migration:
`source.attributes ??= {}; source.attributes.senses ??= {}`.  Reading a property
of a primitive yields `undefined` (nullish), so the second line then assigns and
throws on the primitive (strict mode): hence `.error` when `attributes` holds a
primitive after the first line. -/
def sensesSetup (source : Obj) : Except Unit Obj :=
  let s1 := match olookup source "attributes" with
    | none => oset source "attributes" (.obj [])
    | some .null => oset source "attributes" (.obj [])
    | some _ => source
  match olookup s1 "attributes" with
  | some (.obj afs) =>
    match olookup afs "senses" with
    | none => .ok (oset s1 "attributes" (.obj (oset afs "senses" (.obj []))))
    | some .null => .ok (oset s1 "attributes" (.obj (oset afs "senses" (.obj []))))
    | some _ => .ok s1
  | _ => .error ()

/-- `CreatureTemplate.#migrateSensesData`, parametrised by the keys of the host
configuration `CONFIG.DND5E.senses`. -/
def migrateSensesData (cfg : List String) (source : Obj) : Except Unit Obj :=
  match optChain (olookup source "traits") "senses" with
  | some (.str original) => do
    let s2 ← sensesSetup source
    let r ← (jsSplit ',' original).foldl (sensesStep cfg) (.ok (s2, false))
    if ¬ r.2 = true ∧ original ≠ "" then
      setPath3 r.1 "attributes" "senses" "special" (.str original)
    else pure r.1
  | _ => pure source

end CreatureTemplate

/-! ### Shape and fixed-point predicates (used in lemma and theorem statements) -/

/-- The property `k`, when present, is not `null`. -/
def NotNullAt (s : Obj) (k : String) : Prop := olookup s k ≠ some .null

/-- The property `k` is absent or holds an object. -/
def ObjOrAbsentAt (s : Obj) (k : String) : Prop :=
  olookup s k = none ∨ ∃ fs, olookup s k = some (.obj fs)

/-- `source.traits?.senses` is absent or not a string — the early-return
condition of the senses migration. -/
def notSensesString (s : Obj) : Prop :=
  match optView s "traits" "senses" with
  | some (.str _) => False
  | _ => True

/-- Well-shapedness of the senses write target: `attributes`, when present, is an
object or `null`, and (when an object) its `senses` property, when present, is an
object or `null`. -/
def sensesShapeOK (s : Obj) : Prop :=
  olookup s "attributes" = none ∨ olookup s "attributes" = some .null ∨
    ∃ afs, olookup s "attributes" = some (.obj afs) ∧
      (olookup afs "senses" = none ∨ olookup afs "senses" = some .null ∨
        ∃ gs, olookup afs "senses" = some (.obj gs))

namespace CreatureTemplate

/-- The sequence of property writes the senses migration performs on
`attributes.senses` for the legacy string `original`: the per-term writes, or
the `special` fallback when no term matched and the string is nonempty. -/
def sensesW (cfg : List String) (original : String) : List (String × JVal) :=
  let ws := (jsSplit ',' original).filterMap (senseWrite cfg)
  if ws.isEmpty ∧ original ≠ "" then [("special", .str original)] else ws

end CreatureTemplate

namespace ActivatedEffectTemplate

/-- Fixed-point condition of the `range.value` block of `#migrateRanges` on a
`range` object: rerunning the block rewrites nothing (up to rewriting `range.long`
with the value it already has). -/
def ValueOK (fs : Obj) : Prop :=
  match olookup fs "value" with
  | some (.str t) =>
      t ≠ "" ∧ isNumericStr ((jsSplit '/' t).headD "") = false ∧
      (match (jsSplit '/' t)[1]? with
       | some b => isNumericStr b = true → olookup fs "long" = some (.num (numOf b))
       | none => True)
  | _ => True

/-- `#migrateRanges` succeeds on `s` and leaves it unchanged. -/
def RangeOK (s : Obj) : Prop :=
  match olookup s "range" with
  | none => True
  | some .null => False
  | some (.obj fs) =>
      nullToEmpty (olookup fs "units") = none ∧
      strNumFix (olookup fs "long") = none ∧
      ValueOK fs
  | some _ => True

/-- `#migrateUses` succeeds on `s` and leaves it unchanged. -/
def UsesOK (s : Obj) : Prop :=
  match olookup s "uses" with
  | none => True
  | some (.obj fs) =>
      strNumFix (olookup fs "value") = none ∧ (olookup fs "recovery").isSome = true
  | some _ => False

/-- `#migrateConsume` succeeds on `s` and leaves it unchanged. -/
def ConsumeOK (s : Obj) : Prop :=
  match olookup s "consume" with
  | none => True
  | some .null => False
  | some (.obj fs) =>
      nullToEmpty (olookup fs "type") = none ∧ strNumFix (olookup fs "amount") = none
  | some _ => True

/-- `migrateData` succeeds on `s` and leaves it unchanged: every field is in the
migrations' canonical form. -/
def Migrated (s : Obj) : Prop :=
  formulaFix (optView s "uses" "max") = none ∧
  formulaFix (optView s "duration" "value") = none ∧
  blankToNull (optView s "target" "value") = none ∧
  nullToEmpty (optView s "target" "units") = none ∧
  nullToEmpty (optView s "target" "type") = none ∧
  RangeOK s ∧ UsesOK s ∧ ConsumeOK s

end ActivatedEffectTemplate

/-! ### Object-level lemmas -/

/-- Rounding a natural number to the nearest half is the identity, so
`sensesValue` agrees with the exact `toNearestHalf` embedding. -/
theorem toNearestHalf_natCast (n : Nat) :
    toNearestHalf (n : Rat) = ((sensesValue n : Int) : Rat) := by
  unfold toNearestHalf sensesValue
  have h2 : ((n : Rat) / (1 / 2 : Rat)) = ((n * 2 : Nat) : Rat) := by push_cast; ring
  rw [h2, round_natCast]
  push_cast
  ring


@[simp] theorem olookup_oset_self (o : Obj) (k : String) (v : JVal) :
    olookup (oset o k v) k = some v := by
  induction o with
  | nil => simp [oset, olookup]
  | cons p t ih =>
    obtain ⟨k', w⟩ := p
    by_cases h : k' = k
    · simp [oset, h, olookup]
    · simp [oset, h, olookup, ih]

theorem olookup_oset_ne {k' k : String} (o : Obj) (v : JVal) (h : k' ≠ k) :
    olookup (oset o k v) k' = olookup o k' := by
  induction o with
  | nil => simp [oset, olookup, Ne.symm h]
  | cons p t ih =>
    obtain ⟨a, b⟩ := p
    by_cases ha : a = k
    · subst ha
      simp [oset, olookup, Ne.symm h]
    · by_cases ha' : a = k'
      · simp [oset, ha, olookup, ha', h]
      · simp [oset, ha, olookup, ha', ih]

theorem oset_absorb (o : Obj) (k : String) (v w : JVal) :
    oset (oset o k v) k w = oset o k w := by
  induction o with
  | nil => simp [oset]
  | cons p t ih =>
    obtain ⟨a, b⟩ := p
    by_cases ha : a = k
    · simp [oset, ha]
    · simp [oset, ha, ih]

theorem oset_same {o : Obj} {k : String} {v : JVal} (h : olookup o k = some v) :
    oset o k v = o := by
  induction o with
  | nil => simp [olookup] at h
  | cons p t ih =>
    obtain ⟨a, b⟩ := p
    by_cases ha : a = k
    · subst ha
      simp [olookup] at h
      simp [oset, h]
    · simp [olookup, ha] at h
      simp [oset, ha, ih h]

theorem olookup_oset_isSome {o : Obj} {k : String} (k' : String) (v : JVal)
    (h : (olookup o k).isSome) : (olookup (oset o k' v) k).isSome := by
  by_cases hk : k = k'
  · subst hk; simp
  · rw [olookup_oset_ne o v hk]; exact h

theorem oset_comm_of_mem {o : Obj} {k k' : String} (v w : JVal) (hne : k ≠ k')
    (hm : (olookup o k).isSome) :
    oset (oset o k v) k' w = oset (oset o k' w) k v := by
  induction o with
  | nil => simp [olookup] at hm
  | cons p t ih =>
    obtain ⟨a, b⟩ := p
    by_cases ha : a = k
    · subst ha
      simp [oset, hne, Ne.symm hne]
    · by_cases ha' : a = k'
      · subst ha'
        simp [oset, ha, Ne.symm hne]
      · simp [olookup, ha] at hm
        simp [oset, ha, ha', ih hm]

@[simp] theorem osetList_nil (o : Obj) : osetList o [] = o := rfl

theorem osetList_cons (o : Obj) (k : String) (v : JVal) (ws : List (String × JVal)) :
    osetList o ((k, v) :: ws) = osetList (oset o k v) ws := rfl

theorem osetList_append (o : Obj) (a b : List (String × JVal)) :
    osetList o (a ++ b) = osetList (osetList o a) b := by
  simp [osetList, List.foldl_append]

theorem olookup_osetList_not_mem {ws : List (String × JVal)} {k : String} (o : Obj)
    (h : ∀ p ∈ ws, p.1 ≠ k) : olookup (osetList o ws) k = olookup o k := by
  induction ws generalizing o with
  | nil => rfl
  | cons p ws ih =>
    obtain ⟨a, b⟩ := p
    rw [osetList_cons, ih _ (fun q hq => h q (List.mem_cons_of_mem _ hq)),
      olookup_oset_ne o b (Ne.symm (h (a, b) (List.mem_cons_self _ _)))]

theorem olookup_osetList_isSome {o : Obj} {k : String} (ws : List (String × JVal))
    (h : (olookup o k).isSome) : (olookup (osetList o ws) k).isSome := by
  induction ws generalizing o with
  | nil => exact h
  | cons p ws ih =>
    obtain ⟨a, b⟩ := p
    rw [osetList_cons]
    exact ih (olookup_oset_isSome a b h)

theorem osetList_oset_of_mem {ws : List (String × JVal)} {o : Obj} {k : String} (v : JVal)
    (hm : (olookup o k).isSome) (hk : k ∈ ws.map Prod.fst) :
    osetList (oset o k v) ws = osetList o ws := by
  induction ws generalizing o v with
  | nil => simp at hk
  | cons p ws ih =>
    obtain ⟨a, b⟩ := p
    by_cases ha : a = k
    · subst ha
      rw [osetList_cons, osetList_cons, oset_absorb]
    · have hk' : k ∈ ws.map Prod.fst := by
        simp at hk
        rcases hk with h | h
        · exact absurd h.symm ha
        · simpa using h
      rw [osetList_cons, osetList_cons,
        oset_comm_of_mem v b (fun hh => ha hh.symm) hm,
        ih v (olookup_oset_isSome a b hm) hk']

theorem osetList_idem (o : Obj) (ws : List (String × JVal)) :
    osetList (osetList o ws) ws = osetList o ws := by
  induction ws generalizing o with
  | nil => rfl
  | cons p ws ih =>
    obtain ⟨a, b⟩ := p
    rw [osetList_cons, osetList_cons]
    by_cases hm : a ∈ ws.map Prod.fst
    · rw [osetList_oset_of_mem b
        (olookup_osetList_isSome ws (by simp)) hm, ih]
    · have : olookup (osetList (oset o a b) ws) a = some b := by
        rw [olookup_osetList_not_mem _ (fun p hp => by
          intro he
          exact hm (he ▸ List.mem_map_of_mem Prod.fst hp))]
        simp
      rw [oset_same this, ih]

theorem olookup_osetList_last {ws2 : List (String × JVal)} (o : Obj)
    (ws1 : List (String × JVal)) (k : String) (v : JVal)
    (h2 : ∀ p ∈ ws2, p.1 ≠ k) :
    olookup (osetList o (ws1 ++ (k, v) :: ws2)) k = some v := by
  rw [osetList_append, osetList_cons, olookup_osetList_not_mem _ h2]
  simp

/-! ### Path-level lemmas -/

@[simp] theorem optChain_none (k : String) : optChain none k = none := rfl

@[simp] theorem optChain_null (k : String) : optChain (some .null) k = none := rfl

@[simp] theorem optChain_num (n : Int) (k : String) : optChain (some (.num n)) k = none := rfl

@[simp] theorem optChain_str (t : String) (k : String) : optChain (some (.str t)) k = none := rfl

@[simp] theorem optChain_bool (b : Bool) (k : String) : optChain (some (.bool b)) k = none := rfl

@[simp] theorem optChain_obj (fs : Obj) (k : String) :
    optChain (some (.obj fs)) k = olookup fs k := rfl

@[simp] theorem pget_null (k : String) : pget .null k = .error () := rfl

@[simp] theorem pget_num (n : Int) (k : String) : pget (.num n) k = .ok none := rfl

@[simp] theorem pget_str (t : String) (k : String) : pget (.str t) k = .ok none := rfl

@[simp] theorem pget_bool (b : Bool) (k : String) : pget (.bool b) k = .ok none := rfl

@[simp] theorem pget_obj (fs : Obj) (k : String) : pget (.obj fs) k = .ok (olookup fs k) := rfl

theorem optView_obj {s : Obj} {k1 : String} {fs : Obj} (k2 : String)
    (h : olookup s k1 = some (.obj fs)) : optView s k1 k2 = olookup fs k2 := by
  simp [optView, h]

theorem optView_eq_some {s : Obj} {k1 k2 : String} {x : JVal}
    (h : optView s k1 k2 = some x) :
    ∃ fs, olookup s k1 = some (.obj fs) ∧ olookup fs k2 = some x := by
  unfold optView at h
  cases hv : olookup s k1 with
  | none => rw [hv] at h; simp at h
  | some v =>
    rw [hv] at h
    cases v with
    | obj fs => exact ⟨fs, rfl, by simpa using h⟩
    | null => simp at h
    | num n => simp at h
    | str t => simp at h
    | bool b => simp at h

theorem bindOk {α β : Type} {x : Except Unit α} {f : α → Except Unit β} {y : β}
    (h : x >>= f = .ok y) : ∃ a, x = .ok a ∧ f a = .ok y := by
  cases x with
  | error e => simp [Bind.bind, Except.bind] at h
  | ok a => exact ⟨a, rfl, by simpa [Bind.bind, Except.bind] using h⟩

theorem bindOkIntro {α β : Type} {x : Except Unit α} {f : α → Except Unit β} {a : α}
    {r : Except Unit β} (hx : x = .ok a) (hf : f a = r) : x >>= f = r := by
  subst hx
  simpa [Bind.bind, Except.bind] using hf

theorem setPath_obj {s : Obj} {k1 : String} {fs : Obj} (k2 : String) (x : JVal)
    (h : olookup s k1 = some (.obj fs)) :
    setPath s k1 k2 x = .ok (oset s k1 (.obj (oset fs k2 x))) := by
  simp [setPath, h]

theorem setPath_ok_elim {s s' : Obj} {k1 k2 : String} {x : JVal}
    (h : setPath s k1 k2 x = .ok s') :
    ∃ fs, olookup s k1 = some (.obj fs) ∧ s' = oset s k1 (.obj (oset fs k2 x)) := by
  unfold setPath at h
  cases hv : olookup s k1 with
  | none => rw [hv] at h; simp at h
  | some v =>
    rw [hv] at h
    cases v with
    | obj fs => exact ⟨fs, rfl, by simpa using h.symm⟩
    | null => simp at h
    | num n => simp at h
    | str t => simp at h
    | bool b => simp at h

theorem readPath_obj {s : Obj} {k1 : String} {fs : Obj} (k2 : String)
    (h : olookup s k1 = some (.obj fs)) : readPath s k1 k2 = .ok (olookup fs k2) := by
  simp [readPath, h]

theorem readPath_prim {s : Obj} {k1 : String} {v : JVal} (k2 : String)
    (h : olookup s k1 = some v) (hnn : v ≠ .null) (hno : ∀ gs, v ≠ .obj gs) :
    readPath s k1 k2 = .ok none := by
  unfold readPath
  rw [h]
  cases v with
  | null => exact absurd rfl hnn
  | obj gs => exact absurd rfl (hno gs)
  | num n => rfl
  | str t => rfl
  | bool b => rfl

theorem readPath_ok_elim {s : Obj} {k1 k2 : String} {v : Option JVal}
    (h : readPath s k1 k2 = .ok v) :
    ∃ w, olookup s k1 = some w ∧ w ≠ .null ∧ pget w k2 = .ok v := by
  unfold readPath at h
  cases hv : olookup s k1 with
  | none => rw [hv] at h; simp at h
  | some w =>
    rw [hv] at h
    refine ⟨w, rfl, ?_, h⟩
    rintro rfl
    simp at h

/-! ### Update-combinator lemmas -/

theorem setPath_frame {s s' : Obj} {k1 k2 : String} {x : JVal}
    (h : setPath s k1 k2 x = .ok s') (k : String) (hk : k ≠ k1) :
    olookup s' k = olookup s k := by
  obtain ⟨fs, hfs, rfl⟩ := setPath_ok_elim h
  exact olookup_oset_ne s _ hk

theorem setPath_view {s s' : Obj} {k1 k2 : String} {x : JVal}
    (h : setPath s k1 k2 x = .ok s') : optView s' k1 k2 = some x := by
  obtain ⟨fs, hfs, rfl⟩ := setPath_ok_elim h
  rw [optView_obj _ (olookup_oset_self s k1 _), olookup_oset_self]

theorem setPath_view_ne {s s' : Obj} {k1 k2 : String} {x : JVal}
    (h : setPath s k1 k2 x = .ok s') (k1' k2' : String) (hk : k1' ≠ k1 ∨ k2' ≠ k2) :
    optView s' k1' k2' = optView s k1' k2' := by
  obtain ⟨fs, hfs, rfl⟩ := setPath_ok_elim h
  by_cases hk1 : k1' = k1
  · subst hk1
    have hk2 : k2' ≠ k2 := by tauto
    rw [optView_obj _ (olookup_oset_self s k1' _), optView_obj _ hfs,
      olookup_oset_ne fs x hk2]
  · unfold optView
    rw [olookup_oset_ne s _ hk1]

theorem updOpt_ok_elim {s s' : Obj} {k1 k2 : String} {f : Option JVal → Option JVal}
    (h : updOpt s k1 k2 f = .ok s') :
    (f (optView s k1 k2) = none ∧ s' = s) ∨
    (∃ fs w, f (optView s k1 k2) = some w ∧ olookup s k1 = some (.obj fs) ∧
      s' = oset s k1 (.obj (oset fs k2 w))) := by
  unfold updOpt at h
  cases hf : f (optView s k1 k2) with
  | none => rw [hf] at h; exact Or.inl ⟨rfl, by simpa using h.symm⟩
  | some w =>
    rw [hf] at h
    obtain ⟨fs, hfs, hs'⟩ := setPath_ok_elim h
    exact Or.inr ⟨fs, w, rfl, hfs, hs'⟩

theorem updOpt_none {s : Obj} {k1 k2 : String} {f : Option JVal → Option JVal}
    (h : f (optView s k1 k2) = none) : updOpt s k1 k2 f = .ok s := by
  simp [updOpt, h]

theorem updOpt_write {s : Obj} {k1 k2 : String} {f : Option JVal → Option JVal} {fs : Obj}
    {w : JVal} (hf : f (optView s k1 k2) = some w) (hobj : olookup s k1 = some (.obj fs)) :
    updOpt s k1 k2 f = .ok (oset s k1 (.obj (oset fs k2 w))) := by
  simp [updOpt, hf, setPath, hobj]

theorem updOpt_frame {s s' : Obj} {k1 k2 : String} {f : Option JVal → Option JVal}
    (h : updOpt s k1 k2 f = .ok s') (k : String) (hk : k ≠ k1) :
    olookup s' k = olookup s k := by
  rcases updOpt_ok_elim h with ⟨_, rfl⟩ | ⟨fs, w, _, _, rfl⟩
  · rfl
  · exact olookup_oset_ne s _ hk

theorem updOpt_view_ne {s s' : Obj} {k1 k2 : String} {f : Option JVal → Option JVal}
    (h : updOpt s k1 k2 f = .ok s') (k1' k2' : String) (hk : k1' ≠ k1 ∨ k2' ≠ k2) :
    optView s' k1' k2' = optView s k1' k2' := by
  by_cases hk1 : k1' = k1
  · subst hk1
    have hk2 : k2' ≠ k2 := by tauto
    rcases updOpt_ok_elim h with ⟨_, rfl⟩ | ⟨fs, w, _, hfs, rfl⟩
    · rfl
    · rw [optView_obj _ (olookup_oset_self s k1' _), optView_obj _ hfs,
        olookup_oset_ne fs w hk2]
  · unfold optView
    rw [updOpt_frame h k1' hk1]

theorem updOpt_view_write {s s' : Obj} {k1 k2 : String} {f : Option JVal → Option JVal}
    {w : JVal} (h : updOpt s k1 k2 f = .ok s') (hf : f (optView s k1 k2) = some w) :
    optView s' k1 k2 = some w := by
  rcases updOpt_ok_elim h with ⟨hn, _⟩ | ⟨fs, w', hf', hfs, rfl⟩
  · rw [hf] at hn; cases hn
  · rw [hf] at hf'
    obtain rfl : w = w' := by injection hf'
    rw [optView_obj _ (olookup_oset_self s k1 _), olookup_oset_self]

theorem updOpt_top {s s' : Obj} {k1 k2 : String} {f : Option JVal → Option JVal}
    (h : updOpt s k1 k2 f = .ok s') :
    olookup s' k1 = olookup s k1 ∨
    (∃ fs fs', olookup s k1 = some (.obj fs) ∧ olookup s' k1 = some (.obj fs')) := by
  rcases updOpt_ok_elim h with ⟨_, rfl⟩ | ⟨fs, w, _, hfs, rfl⟩
  · exact Or.inl rfl
  · exact Or.inr ⟨fs, _, hfs, olookup_oset_self s k1 _⟩

theorem updStrict_ok_elim {s s' : Obj} {k1 k2 : String} {f : Option JVal → Option JVal}
    (h : updStrict s k1 k2 f = .ok s') :
    ∃ v, readPath s k1 k2 = .ok v ∧
      ((f v = none ∧ s' = s) ∨
       (∃ fs w, f v = some w ∧ olookup s k1 = some (.obj fs) ∧
         s' = oset s k1 (.obj (oset fs k2 w)))) := by
  unfold updStrict at h
  obtain ⟨v, hv, h2⟩ := bindOk h
  refine ⟨v, hv, ?_⟩
  cases hf : f v with
  | none =>
    rw [hf] at h2
    exact Or.inl ⟨rfl, by simpa [pure, Except.pure] using h2.symm⟩
  | some w =>
    rw [hf] at h2
    obtain ⟨fs, hfs, hs'⟩ := setPath_ok_elim h2
    exact Or.inr ⟨fs, w, rfl, hfs, hs'⟩

theorem updStrict_obj_none {s : Obj} {k1 : String} {fs : Obj} {k2 : String}
    {f : Option JVal → Option JVal} (hobj : olookup s k1 = some (.obj fs))
    (h : f (olookup fs k2) = none) : updStrict s k1 k2 f = .ok s := by
  unfold updStrict
  exact bindOkIntro (readPath_obj k2 hobj) (by simp [h, pure, Except.pure])

theorem updStrict_obj_write {s : Obj} {k1 : String} {fs : Obj} {k2 : String} {w : JVal}
    {f : Option JVal → Option JVal} (hobj : olookup s k1 = some (.obj fs))
    (h : f (olookup fs k2) = some w) :
    updStrict s k1 k2 f = .ok (oset s k1 (.obj (oset fs k2 w))) := by
  unfold updStrict
  exact bindOkIntro (readPath_obj k2 hobj) (by simp [h, setPath, hobj])

theorem updStrict_prim_none {s : Obj} {k1 : String} {v : JVal} {k2 : String}
    {f : Option JVal → Option JVal} (hp : olookup s k1 = some v) (hnn : v ≠ .null)
    (hno : ∀ gs, v ≠ .obj gs) (h : f none = none) : updStrict s k1 k2 f = .ok s := by
  unfold updStrict
  exact bindOkIntro (readPath_prim k2 hp hnn hno) (by simp [h, pure, Except.pure])

theorem updStrict_frame {s s' : Obj} {k1 k2 : String} {f : Option JVal → Option JVal}
    (h : updStrict s k1 k2 f = .ok s') (k : String) (hk : k ≠ k1) :
    olookup s' k = olookup s k := by
  obtain ⟨v, _, hcase⟩ := updStrict_ok_elim h
  rcases hcase with ⟨_, rfl⟩ | ⟨fs, w, _, _, rfl⟩
  · rfl
  · exact olookup_oset_ne s _ hk

theorem updStrict_view_ne {s s' : Obj} {k1 k2 : String} {f : Option JVal → Option JVal}
    (h : updStrict s k1 k2 f = .ok s') (k1' k2' : String) (hk : k1' ≠ k1 ∨ k2' ≠ k2) :
    optView s' k1' k2' = optView s k1' k2' := by
  by_cases hk1 : k1' = k1
  · subst hk1
    have hk2 : k2' ≠ k2 := by tauto
    obtain ⟨v, _, hcase⟩ := updStrict_ok_elim h
    rcases hcase with ⟨_, rfl⟩ | ⟨fs, w, _, hfs, rfl⟩
    · rfl
    · rw [optView_obj _ (olookup_oset_self s k1' _), optView_obj _ hfs,
        olookup_oset_ne fs w hk2]
  · unfold optView
    rw [updStrict_frame h k1' hk1]

theorem updStrict_top {s s' : Obj} {k1 k2 : String} {f : Option JVal → Option JVal}
    (h : updStrict s k1 k2 f = .ok s') :
    olookup s' k1 = olookup s k1 ∨
    (∃ fs fs', olookup s k1 = some (.obj fs) ∧ olookup s' k1 = some (.obj fs')) := by
  obtain ⟨v, _, hcase⟩ := updStrict_ok_elim h
  rcases hcase with ⟨_, rfl⟩ | ⟨fs, w, _, hfs, rfl⟩
  · exact Or.inl rfl
  · exact Or.inr ⟨fs, _, hfs, olookup_oset_self s k1 _⟩

/-! ### String and number lemmas -/

theorem natToDigitsAux_ne_nil {f n : Nat} (hf : f ≠ 0) (hn : n ≠ 0) :
    natToDigitsAux f n ≠ [] := by
  obtain ⟨f', rfl⟩ := Nat.exists_eq_succ_of_ne_zero hf
  obtain ⟨n', rfl⟩ := Nat.exists_eq_succ_of_ne_zero hn
  simp [natToDigitsAux]

theorem jsNatToString_eq_zero {n : Nat} (h : jsNatToString n = "0") : n = 0 := by
  by_contra hn
  unfold jsNatToString at h
  rw [if_neg hn] at h
  have hd : natToDigitsAux n n = ['0'] := by simpa using congrArg String.data h
  obtain ⟨n', rfl⟩ := Nat.exists_eq_succ_of_ne_zero hn
  rw [natToDigitsAux] at hd
  by_cases hbig : 10 ≤ n' + 1
  · have hq : (n' + 1) / 10 ≠ 0 := by
      have := (Nat.one_le_div_iff (by norm_num : (0:Nat) < 10)).mpr hbig
      omega
    have hf : n' ≠ 0 := by omega
    have hne := natToDigitsAux_ne_nil hf hq
    have hlen := congrArg List.length hd
    simp at hlen
    exact hne hlen
  · have hsmall : n' + 1 < 10 := by omega
    have hdiv : (n' + 1) / 10 = 0 := Nat.div_eq_of_lt hsmall
    have hmod : (n' + 1) % 10 = n' + 1 := Nat.mod_eq_of_lt hsmall
    rw [hdiv, hmod] at hd
    simp [natToDigitsAux] at hd
    have hall : ∀ m : Nat, m < 10 → m ≠ 0 → Nat.digitChar m ≠ '0' := by decide
    exact hall (n' + 1) hsmall (by omega) hd

theorem jsIntToString_ne_zero {i : Int} (h : i ≠ 0) : jsIntToString i ≠ "0" := by
  unfold jsIntToString
  by_cases hneg : i < 0
  · rw [if_pos hneg]
    intro hc
    have hd := congrArg String.data hc
    rw [String.data_append] at hd
    have h0 : ("-" : String).data = ['-'] := rfl
    have h1 : ("0" : String).data = ['0'] := rfl
    rw [h0, h1] at hd
    simp at hd
  · rw [if_neg hneg]
    intro hc
    have : i.natAbs = 0 := jsNatToString_eq_zero hc
    exact h (Int.natAbs_eq_zero.mp this)

theorem digitsToNatAux_digits {l : List Char} {a n : Nat}
    (h : digitsToNatAux a l = some n) : ∀ c ∈ l, isDigitChar c = true := by
  induction l generalizing a with
  | nil => simp
  | cons c t ih =>
    unfold digitsToNatAux at h
    by_cases hc : isDigitChar c
    · rw [if_pos hc] at h
      intro d hd
      rcases List.mem_cons.mp hd with rfl | hd'
      · exact hc
      · exact ih h d hd'
    · rw [if_neg hc] at h
      simp at h

theorem digitsVal_digits {l : List Char} {n : Nat} (h : digitsVal l = some n) :
    ∀ c ∈ l, isDigitChar c = true := by
  cases l with
  | nil => simp
  | cons c t => exact digitsToNatAux_digits (by simpa [digitsVal] using h)

theorem strToIntList_cons (c : Char) (rest : List Char) :
    strToIntList (c :: rest) =
      if c = '-' then (digitsVal rest).map (fun n : Nat => -(n : Int))
      else if c = '+' then (digitsVal rest).map (fun n : Nat => (n : Int))
      else (digitsVal (c :: rest)).map (fun n : Nat => (n : Int)) := rfl

theorem strToIntList_no_slash {l : List Char} (h : (strToIntList l).isSome = true) :
    '/' ∉ l := by
  cases l with
  | nil => simp
  | cons c rest =>
    rw [strToIntList_cons] at h
    by_cases hm : c = '-'
    · rw [if_pos hm] at h
      obtain ⟨y, hy⟩ := Option.isSome_iff_exists.mp h
      obtain ⟨n, hn, -⟩ := Option.map_eq_some'.mp hy
      have hdig := digitsVal_digits hn
      intro hmem
      rcases List.mem_cons.mp hmem with he | hmem'
      · rw [hm] at he; exact absurd he (by decide)
      · exact absurd (hdig '/' hmem') (by decide)
    · rw [if_neg hm] at h
      by_cases hp : c = '+'
      · rw [if_pos hp] at h
        obtain ⟨y, hy⟩ := Option.isSome_iff_exists.mp h
        obtain ⟨n, hn, -⟩ := Option.map_eq_some'.mp hy
        have hdig := digitsVal_digits hn
        intro hmem
        rcases List.mem_cons.mp hmem with he | hmem'
        · rw [hp] at he; exact absurd he (by decide)
        · exact absurd (hdig '/' hmem') (by decide)
      · rw [if_neg hp] at h
        obtain ⟨y, hy⟩ := Option.isSome_iff_exists.mp h
        obtain ⟨n, hn, -⟩ := Option.map_eq_some'.mp hy
        have hdig := digitsVal_digits hn
        intro hmem
        exact absurd (hdig '/' hmem) (by decide)

theorem isNumericStr_no_slash {s : String} (h : isNumericStr s = true) : '/' ∉ s.data :=
  strToIntList_no_slash (by simpa [isNumericStr, strToInt] using h)

theorem splitOnChar_ne_nil (sep : Char) (l : List Char) : splitOnChar sep l ≠ [] := by
  cases l with
  | nil => simp [splitOnChar]
  | cons c t =>
    unfold splitOnChar
    cases h : splitOnChar sep t with
    | nil => simp
    | cons a as => by_cases hc : c = sep <;> simp [hc]

theorem splitOnChar_not_mem {sep : Char} {l : List Char} (h : sep ∉ l) :
    splitOnChar sep l = [l] := by
  induction l with
  | nil => rfl
  | cons c t ih =>
    have hc : c ≠ sep := fun hh => h (hh ▸ List.mem_cons_self c t)
    have ht : sep ∉ t := fun hh => h (List.mem_cons_of_mem c hh)
    unfold splitOnChar
    rw [ih ht]
    simp [hc]

theorem splitOnChar_cons (sep c : Char) (t : List Char) :
    splitOnChar sep (c :: t) =
      match splitOnChar sep t with
      | [] => [[]]
      | a :: as => if c = sep then [] :: a :: as else (c :: a) :: as := rfl

theorem splitOnChar_append {sep : Char} {a : List Char} (b : List Char) (h : sep ∉ a) :
    splitOnChar sep (a ++ sep :: b) = a :: splitOnChar sep b := by
  induction a with
  | nil =>
    simp only [List.nil_append]
    rw [splitOnChar_cons]
    cases hs : splitOnChar sep b with
    | nil => exact absurd hs (splitOnChar_ne_nil sep b)
    | cons x xs => simp
  | cons c t ih =>
    have hc : c ≠ sep := fun hh => h (hh ▸ List.mem_cons_self c t)
    have ht : sep ∉ t := fun hh => h (List.mem_cons_of_mem c hh)
    simp only [List.cons_append]
    rw [splitOnChar_cons, ih ht]
    simp [hc]

theorem jsSplit_pair {A B : String} (hA : '/' ∉ A.data) (hB : '/' ∉ B.data) :
    jsSplit '/' (A ++ "/" ++ B) = [A, B] := by
  unfold jsSplit
  have hd : (A ++ "/" ++ B).data = A.data ++ '/' :: B.data := by
    rw [String.data_append, String.data_append]
    simp
  rw [hd, splitOnChar_append _ hA, splitOnChar_not_mem hB]
  rfl

/-! ### Transformer lemmas -/

namespace ActivatedEffectTemplate

@[simp] theorem formulaFix_none : formulaFix none = none := rfl

@[simp] theorem nullToEmpty_none : nullToEmpty none = none := rfl

@[simp] theorem blankToNull_none : blankToNull none = none := rfl

@[simp] theorem strNumFix_none : strNumFix none = none := rfl

theorem formulaFix_write {v : Option JVal} {w : JVal} (h : formulaFix v = some w) :
    formulaFix (some w) = none := by
  cases v with
  | none => simp [formulaFix] at h
  | some x =>
    cases x with
    | num n =>
      by_cases hn : n = 0
      · subst hn
        simp [formulaFix] at h
        simp [formulaFix, ← h]
      · simp [formulaFix, hn] at h
        simp [formulaFix, ← h, jsIntToString_ne_zero hn]
    | str t =>
      by_cases ht : t = "0"
      · simp [formulaFix, ht] at h
        simp [formulaFix, ← h]
      · simp [formulaFix, ht] at h
    | null =>
      simp [formulaFix] at h
      simp [formulaFix, ← h]
    | bool b => simp [formulaFix] at h
    | obj fs => simp [formulaFix] at h

theorem nullToEmpty_write {v : Option JVal} {w : JVal} (h : nullToEmpty v = some w) :
    w = .str "" := by
  cases v with
  | none => simp [nullToEmpty] at h
  | some x =>
    cases x with
    | null => simpa [nullToEmpty] using h.symm
    | num n => simp [nullToEmpty] at h
    | str t => simp [nullToEmpty] at h
    | bool b => simp [nullToEmpty] at h
    | obj fs => simp [nullToEmpty] at h

theorem blankToNull_write {v : Option JVal} {w : JVal} (h : blankToNull v = some w) :
    w = .null := by
  cases v with
  | none => simp [blankToNull] at h
  | some x =>
    cases x with
    | str t =>
      by_cases ht : t = ""
      · simpa [blankToNull, ht] using h.symm
      · simp [blankToNull, ht] at h
    | null => simp [blankToNull] at h
    | num n => simp [blankToNull] at h
    | bool b => simp [blankToNull] at h
    | obj fs => simp [blankToNull] at h

theorem strNumFix_write {v : Option JVal} {w : JVal} (h : strNumFix v = some w) :
    w = .null ∨ ∃ n, w = .num n := by
  cases v with
  | none => simp [strNumFix] at h
  | some x =>
    cases x with
    | str t =>
      by_cases ht : t = ""
      · left; simpa [strNumFix, ht] using h.symm
      · by_cases hnum : isNumericStr t = true
        · right
          refine ⟨numOf t, ?_⟩
          simpa [strNumFix, ht, hnum] using h.symm
        · simp [strNumFix, ht, hnum] at h
    | null => simp [strNumFix] at h
    | num n => simp [strNumFix] at h
    | bool b => simp [strNumFix] at h
    | obj fs => simp [strNumFix] at h

theorem undefToEmpty_write {v : Option JVal} {w : JVal} (h : undefToEmpty v = some w) :
    v = none ∧ w = .str "" := by
  cases v with
  | none => exact ⟨rfl, by simpa [undefToEmpty] using h.symm⟩
  | some x => simp [undefToEmpty] at h

@[simp] theorem strNumFix_null : strNumFix (some .null) = none := rfl

@[simp] theorem strNumFix_num (n : Int) : strNumFix (some (.num n)) = none := rfl

@[simp] theorem nullToEmpty_str (t : String) : nullToEmpty (some (.str t)) = none := rfl

@[simp] theorem blankToNull_null : blankToNull (some .null) = none := rfl

@[simp] theorem undefToEmpty_some (x : JVal) : undefToEmpty (some x) = none := rfl

theorem nullToEmpty_eq_none {v : Option JVal} (h : v ≠ some .null) : nullToEmpty v = none := by
  cases v with
  | none => rfl
  | some x => cases x <;> first | rfl | exact absurd rfl h

/-! ### migrateFormulaFields -/

theorem migrateFormulaFields_elim {s t : Obj} (h : migrateFormulaFields s = .ok t) :
    ∃ s1, updOpt s "uses" "max" formulaFix = .ok s1 ∧
      updOpt s1 "duration" "value" formulaFix = .ok t := by
  unfold migrateFormulaFields at h
  exact bindOk h

theorem migrateFormulaFields_frame {s t : Obj} (h : migrateFormulaFields s = .ok t)
    (k : String) (hk1 : k ≠ "uses") (hk2 : k ≠ "duration") :
    olookup t k = olookup s k := by
  obtain ⟨s1, h1, h2⟩ := migrateFormulaFields_elim h
  rw [updOpt_frame h2 k hk2, updOpt_frame h1 k hk1]

theorem migrateFormulaFields_view {s t : Obj} (h : migrateFormulaFields s = .ok t)
    (k1 k2 : String) (hk1 : k1 ≠ "uses" ∨ k2 ≠ "max")
    (hk2 : k1 ≠ "duration" ∨ k2 ≠ "value") :
    optView t k1 k2 = optView s k1 k2 := by
  obtain ⟨s1, h1, h2⟩ := migrateFormulaFields_elim h
  rw [updOpt_view_ne h2 k1 k2 hk2, updOpt_view_ne h1 k1 k2 hk1]

theorem migrateFormulaFields_fixed {s t : Obj} (h : migrateFormulaFields s = .ok t) :
    formulaFix (optView t "uses" "max") = none ∧
    formulaFix (optView t "duration" "value") = none := by
  obtain ⟨s1, h1, h2⟩ := migrateFormulaFields_elim h
  constructor
  · have hpre : formulaFix (optView s1 "uses" "max") = none := by
      rcases updOpt_ok_elim h1 with ⟨hn, rfl⟩ | ⟨fs, w, hf, hfs, rfl⟩
      · exact hn
      · rw [optView_obj _ (olookup_oset_self s _ _), olookup_oset_self]
        exact formulaFix_write hf
    rw [updOpt_view_ne h2 "uses" "max" (Or.inl (by decide))]
    exact hpre
  · rcases updOpt_ok_elim h2 with ⟨hn, rfl⟩ | ⟨fs, w, hf, hfs, rfl⟩
    · exact hn
    · rw [optView_obj _ (olookup_oset_self s1 _ _), olookup_oset_self]
      exact formulaFix_write hf

theorem migrateFormulaFields_noop {s : Obj}
    (h1 : formulaFix (optView s "uses" "max") = none)
    (h2 : formulaFix (optView s "duration" "value") = none) :
    migrateFormulaFields s = .ok s := by
  unfold migrateFormulaFields
  exact bindOkIntro (updOpt_none h1) (updOpt_none h2)

theorem updOpt_total {s : Obj} {k1 k2 : String} {f : Option JVal → Option JVal}
    (hf : f none = none) : ∃ s', updOpt s k1 k2 f = .ok s' := by
  cases hv : optView s k1 k2 with
  | none => exact ⟨s, updOpt_none (by rw [hv]; exact hf)⟩
  | some x =>
    cases hw : f (some x) with
    | none => exact ⟨s, updOpt_none (by rw [hv]; exact hw)⟩
    | some w =>
      obtain ⟨fs, hfs, _⟩ := optView_eq_some hv
      exact ⟨_, updOpt_write (by rw [hv]; exact hw) hfs⟩

theorem migrateFormulaFields_total (s : Obj) : ∃ t, migrateFormulaFields s = .ok t := by
  obtain ⟨s1, h1⟩ := @updOpt_total s "uses" "max" formulaFix rfl
  obtain ⟨t, h2⟩ := @updOpt_total s1 "duration" "value" formulaFix rfl
  refine ⟨t, ?_⟩
  unfold migrateFormulaFields
  exact bindOkIntro h1 h2

theorem migrateFormulaFields_usesShape {s t : Obj} (h : migrateFormulaFields s = .ok t)
    (hs : ObjOrAbsentAt s "uses") : ObjOrAbsentAt t "uses" := by
  obtain ⟨s1, h1, h2⟩ := migrateFormulaFields_elim h
  have hframe : olookup t "uses" = olookup s1 "uses" :=
    updOpt_frame h2 "uses" (by decide)
  unfold ObjOrAbsentAt at *
  rw [hframe]
  rcases updOpt_top h1 with he | ⟨fs, fs', _, h2'⟩
  · rw [he]; exact hs
  · exact Or.inr ⟨fs', h2'⟩

/-! ### migrateTargets -/

theorem migrateTargets_elim {s t : Obj} (h : migrateTargets s = .ok t) :
    ∃ s1 s2, updOpt s "target" "value" blankToNull = .ok s1 ∧
      updOpt s1 "target" "units" nullToEmpty = .ok s2 ∧
      updOpt s2 "target" "type" nullToEmpty = .ok t := by
  unfold migrateTargets at h
  obtain ⟨s1, h1, h2⟩ := bindOk h
  obtain ⟨s2, h2, h3⟩ := bindOk h2
  exact ⟨s1, s2, h1, h2, h3⟩

theorem migrateTargets_frame {s t : Obj} (h : migrateTargets s = .ok t)
    (k : String) (hk : k ≠ "target") : olookup t k = olookup s k := by
  obtain ⟨s1, s2, h1, h2, h3⟩ := migrateTargets_elim h
  rw [updOpt_frame h3 k hk, updOpt_frame h2 k hk, updOpt_frame h1 k hk]

theorem migrateTargets_view {s t : Obj} (h : migrateTargets s = .ok t)
    (k1 k2 : String) (hk : k1 ≠ "target" ∨ (k2 ≠ "value" ∧ k2 ≠ "units" ∧ k2 ≠ "type")) :
    optView t k1 k2 = optView s k1 k2 := by
  obtain ⟨s1, s2, h1, h2, h3⟩ := migrateTargets_elim h
  rw [updOpt_view_ne h3 k1 k2 (by tauto), updOpt_view_ne h2 k1 k2 (by tauto),
    updOpt_view_ne h1 k1 k2 (by tauto)]

theorem migrateTargets_fixed {s t : Obj} (h : migrateTargets s = .ok t) :
    blankToNull (optView t "target" "value") = none ∧
    nullToEmpty (optView t "target" "units") = none ∧
    nullToEmpty (optView t "target" "type") = none := by
  obtain ⟨s1, s2, h1, h2, h3⟩ := migrateTargets_elim h
  refine ⟨?_, ?_, ?_⟩
  · have hpre : blankToNull (optView s1 "target" "value") = none := by
      rcases updOpt_ok_elim h1 with ⟨hn, rfl⟩ | ⟨fs, w, hf, hfs, rfl⟩
      · exact hn
      · rw [optView_obj _ (olookup_oset_self s _ _), olookup_oset_self,
          blankToNull_write hf]
        rfl
    rw [updOpt_view_ne h3 "target" "value" (Or.inr (by decide)),
      updOpt_view_ne h2 "target" "value" (Or.inr (by decide))]
    exact hpre
  · have hpre : nullToEmpty (optView s2 "target" "units") = none := by
      rcases updOpt_ok_elim h2 with ⟨hn, rfl⟩ | ⟨fs, w, hf, hfs, rfl⟩
      · exact hn
      · rw [optView_obj _ (olookup_oset_self s1 _ _), olookup_oset_self,
          nullToEmpty_write hf]
        rfl
    rw [updOpt_view_ne h3 "target" "units" (Or.inr (by decide))]
    exact hpre
  · rcases updOpt_ok_elim h3 with ⟨hn, rfl⟩ | ⟨fs, w, hf, hfs, rfl⟩
    · exact hn
    · rw [optView_obj _ (olookup_oset_self s2 _ _), olookup_oset_self,
        nullToEmpty_write hf]
      rfl

theorem migrateTargets_noop {s : Obj}
    (h1 : blankToNull (optView s "target" "value") = none)
    (h2 : nullToEmpty (optView s "target" "units") = none)
    (h3 : nullToEmpty (optView s "target" "type") = none) :
    migrateTargets s = .ok s := by
  unfold migrateTargets
  exact bindOkIntro (updOpt_none h1) (bindOkIntro (updOpt_none h2) (updOpt_none h3))

theorem migrateTargets_total (s : Obj) : ∃ t, migrateTargets s = .ok t := by
  obtain ⟨s1, h1⟩ := @updOpt_total s "target" "value" blankToNull rfl
  obtain ⟨s2, h2⟩ := @updOpt_total s1 "target" "units" nullToEmpty rfl
  obtain ⟨t, h3⟩ := @updOpt_total s2 "target" "type" nullToEmpty rfl
  refine ⟨t, ?_⟩
  unfold migrateTargets
  exact bindOkIntro h1 (bindOkIntro h2 h3)

end ActivatedEffectTemplate

/-! ### migrateUses -/

theorem pget_some_obj {w : JVal} {k : String} {x : JVal} (h : pget w k = .ok (some x)) :
    ∃ gs, w = .obj gs ∧ olookup gs k = some x := by
  cases w with
  | obj gs =>
    simp at h
    exact ⟨gs, rfl, h⟩
  | null => simp at h
  | num n => simp at h
  | str t => simp at h
  | bool b => simp at h

theorem updStrict_total_obj {s : Obj} {k1 : String} {fs : Obj} (k2 : String)
    (f : Option JVal → Option JVal) (hobj : olookup s k1 = some (.obj fs)) :
    ∃ s' fs', updStrict s k1 k2 f = .ok s' ∧ olookup s' k1 = some (.obj fs') := by
  cases hw : f (olookup fs k2) with
  | none => exact ⟨s, fs, updStrict_obj_none hobj hw, hobj⟩
  | some w => exact ⟨_, _, updStrict_obj_write hobj hw, olookup_oset_self s k1 _⟩

namespace ActivatedEffectTemplate

theorem migrateUses_elim {s t : Obj} (h : migrateUses s = .ok t) :
    (olookup s "uses" = none ∧ t = s) ∨
    ∃ s1, updStrict s "uses" "value" strNumFix = .ok s1 ∧
      updStrict s1 "uses" "recovery" undefToEmpty = .ok t := by
  unfold migrateUses at h
  cases hu : olookup s "uses" with
  | none =>
    rw [hu] at h
    simp at h
    exact Or.inl ⟨rfl, h.symm⟩
  | some v =>
    rw [hu] at h
    simp at h
    exact Or.inr (bindOk h)

theorem migrateUses_frame {s t : Obj} (h : migrateUses s = .ok t)
    (k : String) (hk : k ≠ "uses") : olookup t k = olookup s k := by
  rcases migrateUses_elim h with ⟨_, rfl⟩ | ⟨s1, h1, h2⟩
  · rfl
  · rw [updStrict_frame h2 k hk, updStrict_frame h1 k hk]

theorem migrateUses_view {s t : Obj} (h : migrateUses s = .ok t) (k1 k2 : String)
    (hk : k1 ≠ "uses" ∨ (k2 ≠ "value" ∧ k2 ≠ "recovery")) :
    optView t k1 k2 = optView s k1 k2 := by
  rcases migrateUses_elim h with ⟨_, rfl⟩ | ⟨s1, h1, h2⟩
  · rfl
  · rw [updStrict_view_ne h2 k1 k2 (by tauto), updStrict_view_ne h1 k1 k2 (by tauto)]

theorem migrateUses_fixed {s t : Obj} (h : migrateUses s = .ok t) : UsesOK t := by
  rcases migrateUses_elim h with ⟨hu, rfl⟩ | ⟨s1, h1, h2⟩
  · simp [UsesOK, hu]
  · obtain ⟨v2, hr2, hcase2⟩ := updStrict_ok_elim h2
    obtain ⟨w2, hw2, hwnn2, hp2⟩ := readPath_ok_elim hr2
    have hobj1 : ∃ fs1, olookup s1 "uses" = some (.obj fs1) := by
      rcases hcase2 with ⟨hf2, rfl⟩ | ⟨fs, w, hf2, hfs, rfl⟩
      · cases hv2 : v2 with
        | none => rw [hv2] at hf2; simp [undefToEmpty] at hf2
        | some x =>
          rw [hv2] at hp2
          obtain ⟨gs, rfl, _⟩ := pget_some_obj hp2
          exact ⟨gs, hw2⟩
      · exact ⟨fs, hfs⟩
    obtain ⟨fs1, hfs1⟩ := hobj1
    have hval1 : strNumFix (olookup fs1 "value") = none := by
      obtain ⟨v1, hr1, hcase1⟩ := updStrict_ok_elim h1
      rcases hcase1 with ⟨hf1, heq⟩ | ⟨fs, w, hf1, hfs, heq⟩
      · subst heq
        rw [readPath_obj "value" hfs1] at hr1
        obtain heq1 : olookup fs1 "value" = v1 := by injection hr1
        rw [heq1]
        exact hf1
      · subst heq
        have hself : olookup (oset s "uses" (.obj (oset fs "value" w))) "uses" =
            some (.obj (oset fs "value" w)) := olookup_oset_self s "uses" _
        rw [hself] at hfs1
        obtain heq2 : oset fs "value" w = fs1 := JVal.obj.inj (Option.some.inj hfs1)
        rw [← heq2, olookup_oset_self]
        rcases strNumFix_write hf1 with rfl | ⟨n, rfl⟩ <;> simp
    rcases hcase2 with ⟨hf2, rfl⟩ | ⟨fs, w, hf2, hfs, rfl⟩
    · rw [readPath_obj "recovery" hfs1] at hr2
      obtain heq : olookup fs1 "recovery" = v2 := by injection hr2
      have hrec : (olookup fs1 "recovery").isSome = true := by
        rw [heq]
        cases hv2 : v2 with
        | none => rw [hv2] at hf2; simp [undefToEmpty] at hf2
        | some x => rfl
      simp [UsesOK, hfs1, hval1, hrec]
    · rw [hfs1] at hfs
      obtain heq : fs1 = fs := JVal.obj.inj (Option.some.inj hfs)
      subst heq
      have hvne : olookup (oset fs1 "recovery" w) "value" = olookup fs1 "value" :=
        olookup_oset_ne fs1 w (by decide)
      simp [UsesOK, olookup_oset_self, hvne, hval1]

theorem migrateUses_noop {s : Obj} (h : UsesOK s) : migrateUses s = .ok s := by
  unfold migrateUses
  cases hu : olookup s "uses" with
  | none => simp [hu]
  | some v =>
    unfold UsesOK at h
    rw [hu] at h
    cases v with
    | obj fs =>
      simp only [hu, Option.isNone_some, Bool.false_eq_true, if_false]
      obtain ⟨hval, hrec⟩ := h
      have hrec' : undefToEmpty (olookup fs "recovery") = none := by
        obtain ⟨x, hx⟩ := Option.isSome_iff_exists.mp hrec
        rw [hx]
        rfl
      exact bindOkIntro (updStrict_obj_none hu hval) (updStrict_obj_none hu hrec')
    | null => exact absurd h (by simp)
    | num n => exact absurd h (by simp)
    | str t => exact absurd h (by simp)
    | bool b => exact absurd h (by simp)

theorem migrateUses_ok_shape {s : Obj} (h : ObjOrAbsentAt s "uses") :
    ∃ t, migrateUses s = .ok t := by
  unfold migrateUses
  rcases h with hnone | ⟨fs, hfs⟩
  · exact ⟨s, by simp [hnone]⟩
  · obtain ⟨s1, fs1, h1, hfs1⟩ := updStrict_total_obj "value" strNumFix hfs
    obtain ⟨t, fst, h2, _⟩ := updStrict_total_obj "recovery" undefToEmpty hfs1
    refine ⟨t, ?_⟩
    simp only [hfs, Option.isNone_some, Bool.false_eq_true, if_false]
    exact bindOkIntro h1 h2

end ActivatedEffectTemplate

/-! ### migrateConsume -/

namespace ActivatedEffectTemplate

theorem migrateConsume_elim {s t : Obj} (h : migrateConsume s = .ok t) :
    (olookup s "consume" = none ∧ t = s) ∨
    ∃ s1, updStrict s "consume" "type" nullToEmpty = .ok s1 ∧
      updStrict s1 "consume" "amount" strNumFix = .ok t := by
  unfold migrateConsume at h
  cases hu : olookup s "consume" with
  | none =>
    rw [hu] at h
    simp at h
    exact Or.inl ⟨rfl, h.symm⟩
  | some v =>
    rw [hu] at h
    simp at h
    exact Or.inr (bindOk h)

theorem migrateConsume_frame {s t : Obj} (h : migrateConsume s = .ok t)
    (k : String) (hk : k ≠ "consume") : olookup t k = olookup s k := by
  rcases migrateConsume_elim h with ⟨_, rfl⟩ | ⟨s1, h1, h2⟩
  · rfl
  · rw [updStrict_frame h2 k hk, updStrict_frame h1 k hk]

theorem migrateConsume_view {s t : Obj} (h : migrateConsume s = .ok t) (k1 k2 : String)
    (hk : k1 ≠ "consume" ∨ (k2 ≠ "type" ∧ k2 ≠ "amount")) :
    optView t k1 k2 = optView s k1 k2 := by
  rcases migrateConsume_elim h with ⟨_, rfl⟩ | ⟨s1, h1, h2⟩
  · rfl
  · rw [updStrict_view_ne h2 k1 k2 (by tauto), updStrict_view_ne h1 k1 k2 (by tauto)]

theorem migrateConsume_fixed {s t : Obj} (h : migrateConsume s = .ok t) : ConsumeOK t := by
  rcases migrateConsume_elim h with ⟨hc, rfl⟩ | ⟨s1, h1, h2⟩
  · simp [ConsumeOK, hc]
  · obtain ⟨v1, hr1, hcase1⟩ := updStrict_ok_elim h1
    obtain ⟨w1, hw1, hnn1, hp1⟩ := readPath_ok_elim hr1
    by_cases hisobj : ∃ gs, w1 = .obj gs
    · obtain ⟨fs, rfl⟩ := hisobj
      have hv1 : olookup fs "type" = v1 := by
        simp at hp1
        exact hp1
      have hstep1 : ∃ fs1, olookup s1 "consume" = some (.obj fs1) ∧
          nullToEmpty (olookup fs1 "type") = none := by
        rcases hcase1 with ⟨hf1, rfl⟩ | ⟨fs', w, hf1, hfs', rfl⟩
        · exact ⟨fs, hw1, by rw [hv1]; exact hf1⟩
        · rw [hw1] at hfs'
          obtain heq : fs = fs' := JVal.obj.inj (Option.some.inj hfs')
          subst heq
          refine ⟨oset fs "type" w, olookup_oset_self s "consume" _, ?_⟩
          rw [olookup_oset_self, nullToEmpty_write hf1]
          rfl
      obtain ⟨fs1, hfs1, htype1⟩ := hstep1
      obtain ⟨v2, hr2, hcase2⟩ := updStrict_ok_elim h2
      rw [readPath_obj "amount" hfs1] at hr2
      obtain hv2 : olookup fs1 "amount" = v2 := by injection hr2
      rcases hcase2 with ⟨hf2, rfl⟩ | ⟨fs', w, hf2, hfs', rfl⟩
      · have hamt : strNumFix (olookup fs1 "amount") = none := by rw [hv2]; exact hf2
        simp [ConsumeOK, hfs1, htype1, hamt]
      · rw [hfs1] at hfs'
        obtain heq : fs1 = fs' := JVal.obj.inj (Option.some.inj hfs')
        subst heq
        have htne : olookup (oset fs1 "amount" w) "type" = olookup fs1 "type" :=
          olookup_oset_ne fs1 w (by decide)
        have hamt : strNumFix (some w) = none := by
          rcases strNumFix_write hf2 with rfl | ⟨n, rfl⟩ <;> simp
        simp [ConsumeOK, olookup_oset_self, htne, htype1, hamt]
    · have hnobj : ∀ gs, w1 ≠ .obj gs := fun gs hg => hisobj ⟨gs, hg⟩
      have hc1 : updStrict s "consume" "type" nullToEmpty = .ok s :=
        updStrict_prim_none hw1 hnn1 hnobj rfl
      rw [hc1] at h1
      obtain rfl : s = s1 := Except.ok.inj h1
      have hc2 : updStrict s "consume" "amount" strNumFix = .ok s :=
        updStrict_prim_none hw1 hnn1 hnobj rfl
      rw [hc2] at h2
      obtain rfl : s = t := Except.ok.inj h2
      unfold ConsumeOK
      rw [hw1]
      cases w1 with
      | null => exact absurd rfl hnn1
      | obj gs => exact absurd rfl (hnobj gs)
      | num n => trivial
      | str u => trivial
      | bool b => trivial

theorem migrateConsume_noop {s : Obj} (h : ConsumeOK s) : migrateConsume s = .ok s := by
  unfold migrateConsume
  cases hu : olookup s "consume" with
  | none => simp [hu]
  | some v =>
    unfold ConsumeOK at h
    rw [hu] at h
    simp only [hu, Option.isNone_some, Bool.false_eq_true, if_false]
    cases v with
    | obj fs =>
      obtain ⟨htype, hamt⟩ := h
      exact bindOkIntro (updStrict_obj_none hu htype) (updStrict_obj_none hu hamt)
    | null => exact absurd h (by simp)
    | num n =>
      exact bindOkIntro (updStrict_prim_none hu (by simp) (by simp) rfl)
        (updStrict_prim_none hu (by simp) (by simp) rfl)
    | str u =>
      exact bindOkIntro (updStrict_prim_none hu (by simp) (by simp) rfl)
        (updStrict_prim_none hu (by simp) (by simp) rfl)
    | bool b =>
      exact bindOkIntro (updStrict_prim_none hu (by simp) (by simp) rfl)
        (updStrict_prim_none hu (by simp) (by simp) rfl)

theorem migrateConsume_ok_shape {s : Obj} (h : NotNullAt s "consume") :
    ∃ t, migrateConsume s = .ok t := by
  unfold migrateConsume
  cases hu : olookup s "consume" with
  | none => exact ⟨s, by simp⟩
  | some v =>
    simp only [hu, Option.isNone_some, Bool.false_eq_true, if_false]
    cases v with
    | null => exact absurd hu h
    | obj fs =>
      obtain ⟨s1, fs1, h1, hfs1⟩ := updStrict_total_obj "type" nullToEmpty hu
      obtain ⟨t, fst, h2, _⟩ := updStrict_total_obj "amount" strNumFix hfs1
      exact ⟨t, bindOkIntro h1 h2⟩
    | num n =>
      refine ⟨s, bindOkIntro (updStrict_prim_none hu (by simp) (by simp) rfl)
        (updStrict_prim_none hu (by simp) (by simp) rfl)⟩
    | str u =>
      refine ⟨s, bindOkIntro (updStrict_prim_none hu (by simp) (by simp) rfl)
        (updStrict_prim_none hu (by simp) (by simp) rfl)⟩
    | bool b =>
      refine ⟨s, bindOkIntro (updStrict_prim_none hu (by simp) (by simp) rfl)
        (updStrict_prim_none hu (by simp) (by simp) rfl)⟩

end ActivatedEffectTemplate

/-! ### migrateRanges -/

theorem pureOk {α : Type} {a b : α} (h : (pure a : Except Unit α) = .ok b) : a = b := by
  simpa [pure, Except.pure] using h

theorem iteSetPath_frame {c : Prop} [Decidable c] {s s' : Obj} {k1 k2 : String} {x : JVal}
    (h : (if c then setPath s k1 k2 x else pure s) = .ok s') (k : String) (hk : k ≠ k1) :
    olookup s' k = olookup s k := by
  by_cases hc : c
  · rw [if_pos hc] at h
    exact setPath_frame h k hk
  · rw [if_neg hc] at h
    obtain rfl : s = s' := pureOk h
    rfl

theorem iteSetPath_elim {c : Prop} [Decidable c] {s s' : Obj} {k1 k2 : String} {x : JVal}
    (h : (if c then setPath s k1 k2 x else pure s) = .ok s') :
    (¬ c ∧ s' = s) ∨
    (c ∧ ∃ fs, olookup s k1 = some (.obj fs) ∧ s' = oset s k1 (.obj (oset fs k2 x))) := by
  by_cases hc : c
  · rw [if_pos hc] at h
    obtain ⟨fs, hfs, rfl⟩ := setPath_ok_elim h
    exact Or.inr ⟨hc, fs, hfs, rfl⟩
  · rw [if_neg hc] at h
    exact Or.inl ⟨hc, (pureOk h).symm⟩

namespace ActivatedEffectTemplate

theorem rangeValueFix_elim {s2 t : Obj} {v : Option JVal} (h : rangeValueFix s2 v = .ok t) :
    ((∀ t0 : String, v ≠ some (.str t0)) ∧ t = s2) ∨
    (v = some (.str "") ∧ setPath s2 "range" "value" JVal.null = .ok t) ∨
    (∃ t0 : String, v = some (.str t0) ∧ t0 ≠ "" ∧
      ∃ s3, (if isNumericStr ((jsSplit '/' t0).headD "") = true
             then setPath s2 "range" "value" (.num (numOf ((jsSplit '/' t0).headD "")))
             else pure s2) = .ok s3 ∧
        (match (jsSplit '/' t0)[1]? with
         | some b => (if isNumericStr b = true
                      then setPath s3 "range" "long" (.num (numOf b))
                      else pure s3) = .ok t
         | none => t = s3)) := by
  cases v with
  | none =>
    refine Or.inl ⟨by simp, ?_⟩
    exact (pureOk h).symm
  | some x =>
    cases x with
    | str t0 =>
      simp only [rangeValueFix] at h
      by_cases ht0 : t0 = ""
      · subst ht0
        rw [if_pos rfl] at h
        exact Or.inr (Or.inl ⟨rfl, h⟩)
      · rw [if_neg ht0] at h
        obtain ⟨s3, h3, h4⟩ := bindOk h
        refine Or.inr (Or.inr ⟨t0, rfl, ht0, s3, h3, ?_⟩)
        cases hp : (jsSplit '/' t0)[1]? with
        | none =>
          rw [hp] at h4
          exact (pureOk h4).symm
        | some b =>
          rw [hp] at h4
          exact h4
    | null => exact Or.inl ⟨by simp, (pureOk h).symm⟩
    | num n => exact Or.inl ⟨by simp, (pureOk h).symm⟩
    | bool b => exact Or.inl ⟨by simp, (pureOk h).symm⟩
    | obj fs => exact Or.inl ⟨by simp, (pureOk h).symm⟩

theorem rangeValueFix_frame {s2 t : Obj} {v : Option JVal} (h : rangeValueFix s2 v = .ok t)
    (k : String) (hk : k ≠ "range") : olookup t k = olookup s2 k := by
  rcases rangeValueFix_elim h with ⟨_, rfl⟩ | ⟨_, hsp⟩ | ⟨t0, _, _, s3, h3, hmatch⟩
  · rfl
  · exact setPath_frame hsp k hk
  · have hf3 : olookup s3 k = olookup s2 k := iteSetPath_frame h3 k hk
    cases hp : (jsSplit '/' t0)[1]? with
    | none =>
      rw [hp] at hmatch
      subst hmatch
      exact hf3
    | some b =>
      rw [hp] at hmatch
      rw [iteSetPath_frame hmatch k hk, hf3]

theorem migrateRanges_elim {s t : Obj} (h : migrateRanges s = .ok t) :
    (olookup s "range" = none ∧ t = s) ∨
    ∃ s1 s2 v, updStrict s "range" "units" nullToEmpty = .ok s1 ∧
      updStrict s1 "range" "long" strNumFix = .ok s2 ∧
      readPath s2 "range" "value" = .ok v ∧ rangeValueFix s2 v = .ok t := by
  unfold migrateRanges at h
  cases hu : olookup s "range" with
  | none =>
    rw [hu] at h
    simp at h
    exact Or.inl ⟨rfl, h.symm⟩
  | some w =>
    rw [hu] at h
    simp only [Option.isNone_some, Bool.false_eq_true, if_false] at h
    obtain ⟨s1, h1, h'⟩ := bindOk h
    obtain ⟨s2, h2, h''⟩ := bindOk h'
    obtain ⟨v, hv, h3⟩ := bindOk h''
    exact Or.inr ⟨s1, s2, v, h1, h2, hv, h3⟩

theorem migrateRanges_frame {s t : Obj} (h : migrateRanges s = .ok t)
    (k : String) (hk : k ≠ "range") : olookup t k = olookup s k := by
  rcases migrateRanges_elim h with ⟨_, rfl⟩ | ⟨s1, s2, v, h1, h2, hv, h3⟩
  · rfl
  · rw [rangeValueFix_frame h3 k hk, updStrict_frame h2 k hk, updStrict_frame h1 k hk]

end ActivatedEffectTemplate

namespace ActivatedEffectTemplate

theorem RangeOK_obj {s : Obj} {fs : Obj} (hfs : olookup s "range" = some (.obj fs))
    (hu : nullToEmpty (olookup fs "units") = none)
    (hl : strNumFix (olookup fs "long") = none)
    (hv : ValueOK fs) : RangeOK s := by
  unfold RangeOK
  rw [hfs]
  exact ⟨hu, hl, hv⟩

theorem ValueOK_not_str {fs : Obj} (h : ∀ t0 : String, olookup fs "value" ≠ some (.str t0)) :
    ValueOK fs := by
  unfold ValueOK
  cases hv : olookup fs "value" with
  | none => trivial
  | some x =>
    cases x with
    | str t0 => exact absurd hv (h t0)
    | null => trivial
    | num n => trivial
    | bool b => trivial
    | obj gs => trivial

theorem ValueOK_str {fs : Obj} {t0 : String} (hv : olookup fs "value" = some (.str t0))
    (h1 : t0 ≠ "") (h2 : isNumericStr ((jsSplit '/' t0).headD "") = false)
    (h3 : ∀ b, (jsSplit '/' t0)[1]? = some b → isNumericStr b = true →
      olookup fs "long" = some (.num (numOf b))) : ValueOK fs := by
  unfold ValueOK
  rw [hv]
  refine ⟨h1, h2, ?_⟩
  cases hp : (jsSplit '/' t0)[1]? with
  | none => trivial
  | some b => exact fun hb => h3 b hp hb

theorem rangeValueFix_RangeOK {s2 t : Obj} {fs2 : Obj} {v : Option JVal}
    (h : rangeValueFix s2 v = .ok t)
    (hfs2 : olookup s2 "range" = some (.obj fs2))
    (hunits : nullToEmpty (olookup fs2 "units") = none)
    (hlong : strNumFix (olookup fs2 "long") = none)
    (hvv : olookup fs2 "value" = v) : RangeOK t := by
  rcases rangeValueFix_elim h with ⟨hns, rfl⟩ | ⟨hestr, hsp⟩ | ⟨t0, hstr, ht0, s3, h3, hmatch⟩
  · refine RangeOK_obj hfs2 hunits hlong (ValueOK_not_str ?_)
    intro t0 hc
    exact hns t0 (by rw [← hvv, hc])
  · obtain ⟨fs, hfs, rfl⟩ := setPath_ok_elim hsp
    rw [hfs2] at hfs
    obtain heq : fs2 = fs := JVal.obj.inj (Option.some.inj hfs)
    subst heq
    refine RangeOK_obj (olookup_oset_self s2 "range" _) ?_ ?_ (ValueOK_not_str ?_)
    · rw [olookup_oset_ne fs2 JVal.null (by decide)]
      exact hunits
    · rw [olookup_oset_ne fs2 JVal.null (by decide)]
      exact hlong
    · intro u hc
      rw [olookup_oset_self] at hc
      simp at hc
  · obtain heq : olookup fs2 "value" = some (.str t0) := by rw [hvv, hstr]
    rcases iteSetPath_elim h3 with ⟨hna, rfl⟩ | ⟨hya, fs', hfs', rfl⟩
    · have hna' : isNumericStr ((jsSplit '/' t0).headD "") = false := by
        revert hna
        cases isNumericStr ((jsSplit '/' t0).headD "") <;> simp
      cases hp : (jsSplit '/' t0)[1]? with
      | none =>
        rw [hp] at hmatch
        subst hmatch
        refine RangeOK_obj hfs2 hunits hlong (ValueOK_str heq ht0 hna' ?_)
        intro b hb
        rw [hp] at hb
        cases hb
      | some b =>
        rw [hp] at hmatch
        rcases iteSetPath_elim hmatch with ⟨hnb, rfl⟩ | ⟨hyb, fs'', hfs'', rfl⟩
        · have hnb' : isNumericStr b = false := by
            revert hnb
            cases isNumericStr b <;> simp
          refine RangeOK_obj hfs2 hunits hlong (ValueOK_str heq ht0 hna' ?_)
          intro b' hb' hnum
          rw [hp] at hb'
          obtain rfl : b = b' := Option.some.inj hb'
          rw [hnb'] at hnum
          cases hnum
        · rw [hfs2] at hfs''
          obtain heq2 : fs2 = fs'' := JVal.obj.inj (Option.some.inj hfs'')
          subst heq2
          refine RangeOK_obj (olookup_oset_self _ "range" _) ?_ ?_ ?_
          · rw [olookup_oset_ne fs2 (JVal.num (numOf b)) (by decide)]
            exact hunits
          · rw [olookup_oset_self]
            simp
          · refine ValueOK_str ?_ ht0 hna' ?_
            · rw [olookup_oset_ne fs2 (JVal.num (numOf b)) (by decide)]
              exact heq
            · intro b' hb' _
              rw [hp] at hb'
              obtain rfl : b = b' := Option.some.inj hb'
              rw [olookup_oset_self]
    · rw [hfs2] at hfs'
      obtain heq2 : fs2 = fs' := JVal.obj.inj (Option.some.inj hfs')
      subst heq2
      cases hp : (jsSplit '/' t0)[1]? with
      | none =>
        rw [hp] at hmatch
        subst hmatch
        refine RangeOK_obj (olookup_oset_self s2 "range" _) ?_ ?_ (ValueOK_not_str ?_)
        · rw [olookup_oset_ne fs2 (JVal.num (numOf ((jsSplit '/' t0).headD ""))) (by decide)]
          exact hunits
        · rw [olookup_oset_ne fs2 (JVal.num (numOf ((jsSplit '/' t0).headD ""))) (by decide)]
          exact hlong
        · intro u hc
          rw [olookup_oset_self] at hc
          simp at hc
      | some b =>
        rw [hp] at hmatch
        rcases iteSetPath_elim hmatch with ⟨hnb, rfl⟩ | ⟨hyb, fs'', hfs'', rfl⟩
        · refine RangeOK_obj (olookup_oset_self s2 "range" _) ?_ ?_ (ValueOK_not_str ?_)
          · rw [olookup_oset_ne fs2 (JVal.num (numOf ((jsSplit '/' t0).headD ""))) (by decide)]
            exact hunits
          · rw [olookup_oset_ne fs2 (JVal.num (numOf ((jsSplit '/' t0).headD ""))) (by decide)]
            exact hlong
          · intro u hc
            rw [olookup_oset_self] at hc
            simp at hc
        · have hself : olookup (oset s2 "range"
              (.obj (oset fs2 "value" (.num (numOf ((jsSplit '/' t0).headD "")))))) "range" =
              some (.obj (oset fs2 "value" (.num (numOf ((jsSplit '/' t0).headD ""))))) :=
            olookup_oset_self s2 "range" _
          rw [hself] at hfs''
          obtain heq3 : oset fs2 "value" (.num (numOf ((jsSplit '/' t0).headD ""))) = fs'' :=
            JVal.obj.inj (Option.some.inj hfs'')
          subst heq3
          refine RangeOK_obj (olookup_oset_self _ "range" _) ?_ ?_ (ValueOK_not_str ?_)
          · rw [olookup_oset_ne _ (JVal.num (numOf b)) (by decide),
              olookup_oset_ne fs2 (JVal.num (numOf ((jsSplit '/' t0).headD ""))) (by decide)]
            exact hunits
          · rw [olookup_oset_self]
            simp
          · intro u hc
            rw [olookup_oset_ne _ (JVal.num (numOf b)) (by decide), olookup_oset_self] at hc
            simp at hc

end ActivatedEffectTemplate

namespace ActivatedEffectTemplate

theorem migrateRanges_fixed {s t : Obj} (h : migrateRanges s = .ok t) : RangeOK t := by
  rcases migrateRanges_elim h with ⟨hn, rfl⟩ | ⟨s1, s2, v, h1, h2, hv, h3⟩
  · simp [RangeOK, hn]
  · obtain ⟨v1, hr1, hcase1⟩ := updStrict_ok_elim h1
    obtain ⟨w1, hw1, hnn1, hp1⟩ := readPath_ok_elim hr1
    by_cases hisobj : ∃ gs, w1 = .obj gs
    · obtain ⟨fs, rfl⟩ := hisobj
      have hv1 : olookup fs "units" = v1 := by simpa using hp1
      have hstep1 : ∃ fs1, olookup s1 "range" = some (.obj fs1) ∧
          nullToEmpty (olookup fs1 "units") = none ∧
          olookup fs1 "long" = olookup fs "long" ∧
          olookup fs1 "value" = olookup fs "value" := by
        rcases hcase1 with ⟨hf1, rfl⟩ | ⟨fs', w, hf1, hfs', rfl⟩
        · exact ⟨fs, hw1, by rw [hv1]; exact hf1, rfl, rfl⟩
        · rw [hw1] at hfs'
          obtain heqa : fs = fs' := JVal.obj.inj (Option.some.inj hfs')
          subst heqa
          refine ⟨oset fs "units" w, olookup_oset_self s "range" _, ?_,
            olookup_oset_ne fs w (by decide), olookup_oset_ne fs w (by decide)⟩
          rw [olookup_oset_self, nullToEmpty_write hf1]
          rfl
      obtain ⟨fs1, hfs1, hunits1, hlong1, hvalue1⟩ := hstep1
      obtain ⟨v2, hr2, hcase2⟩ := updStrict_ok_elim h2
      rw [readPath_obj "long" hfs1] at hr2
      obtain hv2 : olookup fs1 "long" = v2 := by injection hr2
      have hstep2 : ∃ fs2, olookup s2 "range" = some (.obj fs2) ∧
          nullToEmpty (olookup fs2 "units") = none ∧
          strNumFix (olookup fs2 "long") = none ∧
          olookup fs2 "value" = olookup fs1 "value" := by
        rcases hcase2 with ⟨hf2, rfl⟩ | ⟨fs', w, hf2, hfs', rfl⟩
        · exact ⟨fs1, hfs1, hunits1, by rw [hv2]; exact hf2, rfl⟩
        · rw [hfs1] at hfs'
          obtain heqa : fs1 = fs' := JVal.obj.inj (Option.some.inj hfs')
          subst heqa
          refine ⟨oset fs1 "long" w, olookup_oset_self s1 "range" _, ?_, ?_,
            olookup_oset_ne fs1 w (by decide)⟩
          · rw [olookup_oset_ne fs1 w (by decide)]
            exact hunits1
          · rw [olookup_oset_self]
            rcases strNumFix_write hf2 with rfl | ⟨n, rfl⟩ <;> simp
      obtain ⟨fs2, hfs2, hunits2, hlong2, hvalue2⟩ := hstep2
      rw [readPath_obj "value" hfs2] at hv
      obtain hvv : olookup fs2 "value" = v := by injection hv
      exact rangeValueFix_RangeOK h3 hfs2 hunits2 hlong2 hvv
    · have hnobj : ∀ gs, w1 ≠ .obj gs := fun gs hg => hisobj ⟨gs, hg⟩
      have hc1 : updStrict s "range" "units" nullToEmpty = .ok s :=
        updStrict_prim_none hw1 hnn1 hnobj rfl
      rw [hc1] at h1
      obtain rfl : s = s1 := Except.ok.inj h1
      have hc2 : updStrict s "range" "long" strNumFix = .ok s :=
        updStrict_prim_none hw1 hnn1 hnobj rfl
      rw [hc2] at h2
      obtain rfl : s = s2 := Except.ok.inj h2
      have hrv : readPath s "range" "value" = .ok none := readPath_prim "value" hw1 hnn1 hnobj
      rw [hrv] at hv
      obtain rfl : (none : Option JVal) = v := Except.ok.inj hv
      have hfix : rangeValueFix s none = .ok s := rfl
      rw [hfix] at h3
      obtain rfl : s = t := Except.ok.inj h3
      unfold RangeOK
      rw [hw1]
      cases w1 with
      | null => exact absurd rfl hnn1
      | obj gs => exact absurd rfl (hnobj gs)
      | num n => trivial
      | str u => trivial
      | bool b => trivial

theorem migrateRanges_noop {s : Obj} (h : RangeOK s) : migrateRanges s = .ok s := by
  unfold migrateRanges
  cases hu : olookup s "range" with
  | none => simp [hu]
  | some w =>
    unfold RangeOK at h
    rw [hu] at h
    simp only [hu, Option.isNone_some, Bool.false_eq_true, if_false]
    cases w with
    | null => exact absurd h (by simp)
    | obj fs =>
      obtain ⟨hunits, hlong, hvok⟩ := h
      refine bindOkIntro (updStrict_obj_none hu hunits) ?_
      refine bindOkIntro (updStrict_obj_none hu hlong) ?_
      refine bindOkIntro (readPath_obj "value" hu) ?_
      unfold ValueOK at hvok
      cases hval : olookup fs "value" with
      | none => rfl
      | some x =>
        rw [hval] at hvok
        cases x with
        | str t0 =>
          obtain ⟨ht0, hna, hbc⟩ := hvok
          simp only [rangeValueFix]
          rw [if_neg ht0]
          have hcond : ¬ (isNumericStr ((jsSplit '/' t0).headD "") = true) := by
            rw [hna]
            simp
          rw [if_neg hcond]
          refine bindOkIntro rfl ?_
          cases hp : (jsSplit '/' t0)[1]? with
          | none => rfl
          | some b =>
            rw [hp] at hbc
            show (if isNumericStr b = true
                then setPath s "range" "long" (JVal.num (numOf b)) else pure s) = .ok s
            by_cases hb : isNumericStr b = true
            · rw [if_pos hb]
              have hlongb := hbc hb
              rw [setPath_obj "long" (.num (numOf b)) hu, oset_same hlongb, oset_same hu]
            · rw [if_neg hb]
              rfl
        | null => rfl
        | num n => rfl
        | bool b => rfl
        | obj gs => rfl
    | num n =>
      exact bindOkIntro (updStrict_prim_none hu (by simp) (by simp) rfl)
        (bindOkIntro (updStrict_prim_none hu (by simp) (by simp) rfl)
          (bindOkIntro (readPath_prim "value" hu (by simp) (by simp)) rfl))
    | str u =>
      exact bindOkIntro (updStrict_prim_none hu (by simp) (by simp) rfl)
        (bindOkIntro (updStrict_prim_none hu (by simp) (by simp) rfl)
          (bindOkIntro (readPath_prim "value" hu (by simp) (by simp)) rfl))
    | bool b =>
      exact bindOkIntro (updStrict_prim_none hu (by simp) (by simp) rfl)
        (bindOkIntro (updStrict_prim_none hu (by simp) (by simp) rfl)
          (bindOkIntro (readPath_prim "value" hu (by simp) (by simp)) rfl))

theorem rangeValueFix_total_obj {s2 : Obj} {fs2 : Obj} (v : Option JVal)
    (hobj : olookup s2 "range" = some (.obj fs2)) : ∃ t, rangeValueFix s2 v = .ok t := by
  cases v with
  | none => exact ⟨s2, rfl⟩
  | some x =>
    cases x with
    | null => exact ⟨s2, rfl⟩
    | num n => exact ⟨s2, rfl⟩
    | bool b => exact ⟨s2, rfl⟩
    | obj gs => exact ⟨s2, rfl⟩
    | str t0 =>
      simp only [rangeValueFix]
      by_cases ht0 : t0 = ""
      · rw [if_pos ht0]
        exact ⟨_, setPath_obj "value" JVal.null hobj⟩
      · rw [if_neg ht0]
        have hstep : ∃ s3 fs3, (if isNumericStr ((jsSplit '/' t0).headD "") = true
            then setPath s2 "range" "value" (.num (numOf ((jsSplit '/' t0).headD "")))
            else pure s2) = .ok s3 ∧ olookup s3 "range" = some (.obj fs3) := by
          by_cases ha : isNumericStr ((jsSplit '/' t0).headD "") = true
          · rw [if_pos ha]
            exact ⟨_, _, setPath_obj "value" _ hobj, olookup_oset_self s2 "range" _⟩
          · rw [if_neg ha]
            exact ⟨s2, fs2, rfl, hobj⟩
        obtain ⟨s3, fs3, h3, hfs3⟩ := hstep
        cases hp : (jsSplit '/' t0)[1]? with
        | none => exact ⟨s3, bindOkIntro h3 rfl⟩
        | some b =>
          by_cases hb : isNumericStr b = true
          · refine ⟨oset s3 "range" (.obj (oset fs3 "long" (.num (numOf b)))),
              bindOkIntro h3 ?_⟩
            show (if isNumericStr b = true
                then setPath s3 "range" "long" (JVal.num (numOf b)) else pure s3) = _
            rw [if_pos hb]
            exact setPath_obj "long" _ hfs3
          · refine ⟨s3, bindOkIntro h3 ?_⟩
            show (if isNumericStr b = true
                then setPath s3 "range" "long" (JVal.num (numOf b)) else pure s3) = .ok s3
            rw [if_neg hb]
            rfl

theorem migrateRanges_ok_shape {s : Obj} (h : NotNullAt s "range") :
    ∃ t, migrateRanges s = .ok t := by
  unfold migrateRanges
  cases hu : olookup s "range" with
  | none => exact ⟨s, by simp⟩
  | some w =>
    simp only [hu, Option.isNone_some, Bool.false_eq_true, if_false]
    cases w with
    | null => exact absurd hu h
    | obj fs =>
      obtain ⟨s1, fs1, h1, hfs1⟩ := updStrict_total_obj "units" nullToEmpty hu
      obtain ⟨s2, fs2, h2, hfs2⟩ := updStrict_total_obj "long" strNumFix hfs1
      obtain ⟨t, h3⟩ := rangeValueFix_total_obj (olookup fs2 "value") hfs2
      exact ⟨t, bindOkIntro h1 (bindOkIntro h2 (bindOkIntro (readPath_obj "value" hfs2) h3))⟩
    | num n =>
      exact ⟨s, bindOkIntro (updStrict_prim_none hu (by simp) (by simp) rfl)
        (bindOkIntro (updStrict_prim_none hu (by simp) (by simp) rfl)
          (bindOkIntro (readPath_prim "value" hu (by simp) (by simp)) rfl))⟩
    | str u =>
      exact ⟨s, bindOkIntro (updStrict_prim_none hu (by simp) (by simp) rfl)
        (bindOkIntro (updStrict_prim_none hu (by simp) (by simp) rfl)
          (bindOkIntro (readPath_prim "value" hu (by simp) (by simp)) rfl))⟩
    | bool b =>
      exact ⟨s, bindOkIntro (updStrict_prim_none hu (by simp) (by simp) rfl)
        (bindOkIntro (updStrict_prim_none hu (by simp) (by simp) rfl)
          (bindOkIntro (readPath_prim "value" hu (by simp) (by simp)) rfl))⟩

end ActivatedEffectTemplate

/-! ### migrateData assembly -/

namespace ActivatedEffectTemplate

theorem migrateRanges_view {s t : Obj} (h : migrateRanges s = .ok t) (k1 k2 : String)
    (hk : k1 ≠ "range") : optView t k1 k2 = optView s k1 k2 := by
  unfold optView
  rw [migrateRanges_frame h k1 hk]

theorem RangeOK_of_frame {s t : Obj} (he : olookup t "range" = olookup s "range")
    (h : RangeOK s) : RangeOK t := by
  unfold RangeOK at *
  rw [he]
  exact h

theorem UsesOK_of_frame {s t : Obj} (he : olookup t "uses" = olookup s "uses")
    (h : UsesOK s) : UsesOK t := by
  unfold UsesOK at *
  rw [he]
  exact h

theorem migrateData_elim {s t : Obj} (h : migrateData s = .ok t) :
    ∃ s1 s2 s3 s4, migrateFormulaFields s = .ok s1 ∧ migrateRanges s1 = .ok s2 ∧
      migrateTargets s2 = .ok s3 ∧ migrateUses s3 = .ok s4 ∧ migrateConsume s4 = .ok t := by
  unfold migrateData at h
  obtain ⟨s1, h1, ha⟩ := bindOk h
  obtain ⟨s2, h2, hb⟩ := bindOk ha
  obtain ⟨s3, h3, hc⟩ := bindOk hb
  obtain ⟨s4, h4, h5⟩ := bindOk hc
  exact ⟨s1, s2, s3, s4, h1, h2, h3, h4, h5⟩

theorem migrateData_frame {s t : Obj} (h : migrateData s = .ok t) (k : String)
    (h1 : k ≠ "duration") (h2 : k ≠ "range") (h3 : k ≠ "target") (h4 : k ≠ "uses")
    (h5 : k ≠ "consume") : olookup t k = olookup s k := by
  obtain ⟨s1, s2, s3, s4, hf, hr, ht, hu, hc⟩ := migrateData_elim h
  rw [migrateConsume_frame hc k h5, migrateUses_frame hu k h4, migrateTargets_frame ht k h3,
    migrateRanges_frame hr k h2, migrateFormulaFields_frame hf k h4 h1]

theorem migrateData_fixed {s t : Obj} (h : migrateData s = .ok t) : Migrated t := by
  obtain ⟨s1, s2, s3, s4, hf, hr, ht, hu, hc⟩ := migrateData_elim h
  obtain ⟨hf1, hf2⟩ := migrateFormulaFields_fixed hf
  refine ⟨?_, ?_, ?_, ?_, ?_, ?_, ?_, migrateConsume_fixed hc⟩
  · rw [migrateConsume_view hc "uses" "max" (Or.inr (by decide)),
      migrateUses_view hu "uses" "max" (Or.inr (by decide)),
      migrateTargets_view ht "uses" "max" (Or.inl (by decide)),
      migrateRanges_view hr "uses" "max" (by decide)]
    exact hf1
  · rw [migrateConsume_view hc "duration" "value" (Or.inl (by decide)),
      migrateUses_view hu "duration" "value" (Or.inl (by decide)),
      migrateTargets_view ht "duration" "value" (Or.inl (by decide)),
      migrateRanges_view hr "duration" "value" (by decide)]
    exact hf2
  · obtain ⟨ht1, _, _⟩ := migrateTargets_fixed ht
    rw [migrateConsume_view hc "target" "value" (Or.inl (by decide)),
      migrateUses_view hu "target" "value" (Or.inl (by decide))]
    exact ht1
  · obtain ⟨_, ht2, _⟩ := migrateTargets_fixed ht
    rw [migrateConsume_view hc "target" "units" (Or.inl (by decide)),
      migrateUses_view hu "target" "units" (Or.inl (by decide))]
    exact ht2
  · obtain ⟨_, _, ht3⟩ := migrateTargets_fixed ht
    rw [migrateConsume_view hc "target" "type" (Or.inl (by decide)),
      migrateUses_view hu "target" "type" (Or.inl (by decide))]
    exact ht3
  · have hA : RangeOK s3 := RangeOK_of_frame (migrateTargets_frame ht "range" (by decide))
      (migrateRanges_fixed hr)
    have hB : RangeOK s4 := RangeOK_of_frame (migrateUses_frame hu "range" (by decide)) hA
    exact RangeOK_of_frame (migrateConsume_frame hc "range" (by decide)) hB
  · exact UsesOK_of_frame (migrateConsume_frame hc "uses" (by decide)) (migrateUses_fixed hu)

theorem migrateData_noop {s : Obj} (h : Migrated s) : migrateData s = .ok s := by
  obtain ⟨h1, h2, h3, h4, h5, hR, hU, hC⟩ := h
  unfold migrateData
  exact bindOkIntro (migrateFormulaFields_noop h1 h2)
    (bindOkIntro (migrateRanges_noop hR)
      (bindOkIntro (migrateTargets_noop h3 h4 h5)
        (bindOkIntro (migrateUses_noop hU) (migrateConsume_noop hC))))

theorem migrateData_idem {s t : Obj} (h : migrateData s = .ok t) : migrateData t = .ok t :=
  migrateData_noop (migrateData_fixed h)

theorem migrateFormulaFields_idem {s t : Obj} (h : migrateFormulaFields s = .ok t) :
    migrateFormulaFields t = .ok t := by
  obtain ⟨hf1, hf2⟩ := migrateFormulaFields_fixed h
  exact migrateFormulaFields_noop hf1 hf2

theorem migrateRanges_idem {s t : Obj} (h : migrateRanges s = .ok t) :
    migrateRanges t = .ok t := migrateRanges_noop (migrateRanges_fixed h)

theorem migrateTargets_idem {s t : Obj} (h : migrateTargets s = .ok t) :
    migrateTargets t = .ok t := by
  obtain ⟨h1, h2, h3⟩ := migrateTargets_fixed h
  exact migrateTargets_noop h1 h2 h3

theorem migrateUses_idem {s t : Obj} (h : migrateUses s = .ok t) :
    migrateUses t = .ok t := migrateUses_noop (migrateUses_fixed h)

theorem migrateConsume_idem {s t : Obj} (h : migrateConsume s = .ok t) :
    migrateConsume t = .ok t := migrateConsume_noop (migrateConsume_fixed h)

theorem migrateData_ok_shape {s : Obj} (hr : NotNullAt s "range")
    (hu : ObjOrAbsentAt s "uses") (hc : NotNullAt s "consume") :
    ∃ t, migrateData s = .ok t := by
  obtain ⟨s1, h1⟩ := migrateFormulaFields_total s
  have hr1 : NotNullAt s1 "range" := by
    unfold NotNullAt at *
    rw [migrateFormulaFields_frame h1 "range" (by decide) (by decide)]
    exact hr
  obtain ⟨s2, h2⟩ := migrateRanges_ok_shape hr1
  obtain ⟨s3, h3⟩ := migrateTargets_total s2
  have hu3 : ObjOrAbsentAt s3 "uses" := by
    have hu1 := migrateFormulaFields_usesShape h1 hu
    unfold ObjOrAbsentAt at *
    rw [migrateTargets_frame h3 "uses" (by decide), migrateRanges_frame h2 "uses" (by decide)]
    exact hu1
  obtain ⟨s4, h4⟩ := migrateUses_ok_shape hu3
  have hc4 : NotNullAt s4 "consume" := by
    unfold NotNullAt at *
    rw [migrateUses_frame h4 "consume" (by decide), migrateTargets_frame h3 "consume" (by decide),
      migrateRanges_frame h2 "consume" (by decide),
      migrateFormulaFields_frame h1 "consume" (by decide) (by decide)]
    exact hc
  obtain ⟨t, h5⟩ := migrateConsume_ok_shape hc4
  refine ⟨t, ?_⟩
  unfold migrateData
  exact bindOkIntro h1 (bindOkIntro h2 (bindOkIntro h3 (bindOkIntro h4 h5)))

end ActivatedEffectTemplate

/-! ### Value-tracking lemmas -/

theorem updStrict_view_write {s s' : Obj} {k1 k2 : String} {fs : Obj}
    {f : Option JVal → Option JVal} {w : JVal} (h : updStrict s k1 k2 f = .ok s')
    (hobj : olookup s k1 = some (.obj fs)) (hf : f (olookup fs k2) = some w) :
    optView s' k1 k2 = some w := by
  have hrun := updStrict_obj_write hobj hf
  rw [hrun] at h
  obtain rfl : oset s k1 (.obj (oset fs k2 w)) = s' := Except.ok.inj h
  rw [optView_obj _ (olookup_oset_self s k1 _), olookup_oset_self]

theorem updStrict_obj_pres {s s' : Obj} {k1 k2 : String} {f : Option JVal → Option JVal}
    {fs : Obj} (h : updStrict s k1 k2 f = .ok s') (hobj : olookup s k1 = some (.obj fs)) :
    ∃ fs', olookup s' k1 = some (.obj fs') := by
  rcases updStrict_top h with he | ⟨a, b, _, hb⟩
  · exact ⟨fs, by rw [he]; exact hobj⟩
  · exact ⟨b, hb⟩

theorem iteSetPath_view_ne {c : Prop} [Decidable c] {s s' : Obj} {k1 k2 : String} {x : JVal}
    (h : (if c then setPath s k1 k2 x else pure s) = .ok s') (k1' k2' : String)
    (hk : k1' ≠ k1 ∨ k2' ≠ k2) : optView s' k1' k2' = optView s k1' k2' := by
  rcases iteSetPath_elim h with ⟨_, rfl⟩ | ⟨_, fs, hfs, rfl⟩
  · rfl
  · exact setPath_view_ne (setPath_obj k2 x hfs) k1' k2' hk

namespace ActivatedEffectTemplate

theorem formulaFix_num_ne_none (n : Int) : formulaFix (some (.num n)) ≠ none := by
  unfold formulaFix
  by_cases hn : n = 0 <;> simp [hn]

theorem rangeValueFix_view_units {s2 t : Obj} {v : Option JVal}
    (h : rangeValueFix s2 v = .ok t) :
    optView t "range" "units" = optView s2 "range" "units" := by
  rcases rangeValueFix_elim h with ⟨_, rfl⟩ | ⟨_, hsp⟩ | ⟨t0, _, _, s3, h3, hmatch⟩
  · rfl
  · exact setPath_view_ne hsp "range" "units" (Or.inr (by decide))
  · have hf3 : optView s3 "range" "units" = optView s2 "range" "units" :=
      iteSetPath_view_ne h3 "range" "units" (Or.inr (by decide))
    cases hp : (jsSplit '/' t0)[1]? with
    | none =>
      rw [hp] at hmatch
      subst hmatch
      exact hf3
    | some b =>
      rw [hp] at hmatch
      rw [iteSetPath_view_ne hmatch "range" "units" (Or.inr (by decide)), hf3]

theorem rangeValueFix_split {s2 : Obj} {A B : String} {t : Obj}
    (h : rangeValueFix s2 (some (.str (A ++ "/" ++ B))) = .ok t)
    (hA : isNumericStr A = true) (hB : isNumericStr B = true) :
    optView t "range" "value" = some (.num (numOf A)) ∧
    optView t "range" "long" = some (.num (numOf B)) := by
  have hparts : jsSplit '/' (A ++ "/" ++ B) = [A, B] :=
    jsSplit_pair (isNumericStr_no_slash hA) (isNumericStr_no_slash hB)
  have hne : A ++ "/" ++ B ≠ "" := by
    intro hc
    have hd := congrArg String.data hc
    rw [String.data_append, String.data_append] at hd
    simp at hd
  simp only [rangeValueFix] at h
  rw [if_neg hne, hparts] at h
  simp only [List.headD_cons] at h
  rw [if_pos hA] at h
  obtain ⟨s3, h3, h4⟩ := bindOk h
  have h4' : (if isNumericStr B = true
      then setPath s3 "range" "long" (.num (numOf B)) else pure s3) = .ok t := h4
  rw [if_pos hB] at h4'
  constructor
  · rw [setPath_view_ne h4' "range" "value" (Or.inr (by decide))]
    exact setPath_view h3
  · exact setPath_view h4'

theorem rangeValueFix_blank {s2 : Obj} {t : Obj}
    (h : rangeValueFix s2 (some (.str "")) = .ok t) :
    optView t "range" "value" = some .null := by
  simp only [rangeValueFix, if_true] at h
  exact setPath_view h

theorem migrateFormulaFields_writes {s t : Obj} (h : migrateFormulaFields s = .ok t) :
    (∀ w, formulaFix (optView s "uses" "max") = some w → optView t "uses" "max" = some w) ∧
    (∀ w, formulaFix (optView s "duration" "value") = some w →
      optView t "duration" "value" = some w) := by
  obtain ⟨s1, h1, h2⟩ := migrateFormulaFields_elim h
  constructor
  · intro w hw
    rw [updOpt_view_ne h2 "uses" "max" (Or.inl (by decide))]
    exact updOpt_view_write h1 hw
  · intro w hw
    have hpres : optView s1 "duration" "value" = optView s "duration" "value" :=
      updOpt_view_ne h1 "duration" "value" (Or.inl (by decide))
    exact updOpt_view_write h2 (by rw [hpres]; exact hw)

theorem migrateData_formula_writes {s t : Obj} (h : migrateData s = .ok t) :
    (∀ w, formulaFix (optView s "uses" "max") = some w → optView t "uses" "max" = some w) ∧
    (∀ w, formulaFix (optView s "duration" "value") = some w →
      optView t "duration" "value" = some w) := by
  obtain ⟨s1, s2, s3, s4, hf, hr, ht, hu, hc⟩ := migrateData_elim h
  obtain ⟨hw1, hw2⟩ := migrateFormulaFields_writes hf
  constructor
  · intro w hw
    rw [migrateConsume_view hc "uses" "max" (Or.inr (by decide)),
      migrateUses_view hu "uses" "max" (Or.inr (by decide)),
      migrateTargets_view ht "uses" "max" (Or.inl (by decide)),
      migrateRanges_view hr "uses" "max" (by decide)]
    exact hw1 w hw
  · intro w hw
    rw [migrateConsume_view hc "duration" "value" (Or.inl (by decide)),
      migrateUses_view hu "duration" "value" (Or.inl (by decide)),
      migrateTargets_view ht "duration" "value" (Or.inl (by decide)),
      migrateRanges_view hr "duration" "value" (by decide)]
    exact hw2 w hw

end ActivatedEffectTemplate

theorem updOpt_obj_pres {s s' : Obj} {k1 k2 : String} {f : Option JVal → Option JVal}
    {fs : Obj} (h : updOpt s k1 k2 f = .ok s') (hobj : olookup s k1 = some (.obj fs)) :
    ∃ fs', olookup s' k1 = some (.obj fs') := by
  rcases updOpt_top h with he | ⟨a, b, _, hb⟩
  · exact ⟨fs, by rw [he]; exact hobj⟩
  · exact ⟨b, hb⟩

namespace ActivatedEffectTemplate

theorem migrateData_range {s t : Obj} (h : migrateData s = .ok t) :
    (∀ A B, isNumericStr A = true → isNumericStr B = true →
      optView s "range" "value" = some (.str (A ++ "/" ++ B)) →
      optView t "range" "value" = some (.num (numOf A)) ∧
      optView t "range" "long" = some (.num (numOf B))) ∧
    (optView s "range" "value" = some (.str "") → optView t "range" "value" = some .null) ∧
    (optView s "range" "units" = some .null → optView t "range" "units" = some (.str "")) := by
  obtain ⟨s1, s2, s3, s4, hf, hr, ht, hu, hc⟩ := migrateData_elim h
  have hfv : ∀ k2, optView s1 "range" k2 = optView s "range" k2 := fun k2 =>
    migrateFormulaFields_view hf "range" k2 (Or.inl (by decide)) (Or.inl (by decide))
  have hpost : ∀ k2 (x : JVal), optView s2 "range" k2 = some x →
      optView t "range" k2 = some x := by
    intro k2 x hx
    rw [migrateConsume_view hc "range" k2 (Or.inl (by decide)),
      migrateUses_view hu "range" k2 (Or.inl (by decide)),
      migrateTargets_view ht "range" k2 (Or.inl (by decide))]
    exact hx
  refine ⟨?_, ?_, ?_⟩
  · intro A B hA hB hval
    have hval1 : optView s1 "range" "value" = some (.str (A ++ "/" ++ B)) := by
      rw [hfv]
      exact hval
    obtain ⟨fs, hobj1, _⟩ := optView_eq_some hval1
    rcases migrateRanges_elim hr with ⟨hn, _⟩ | ⟨r1, r2, v, hh1, hh2, hhv, hh3⟩
    · rw [hn] at hobj1; cases hobj1
    · have hval2 : optView r2 "range" "value" = some (.str (A ++ "/" ++ B)) := by
        rw [updStrict_view_ne hh2 "range" "value" (Or.inr (by decide)),
          updStrict_view_ne hh1 "range" "value" (Or.inr (by decide))]
        exact hval1
      obtain ⟨fs1, hobjr1⟩ := updStrict_obj_pres hh1 hobj1
      obtain ⟨fs2, hobjr2⟩ := updStrict_obj_pres hh2 hobjr1
      rw [readPath_obj "value" hobjr2] at hhv
      obtain hveq : olookup fs2 "value" = v := by injection hhv
      have hv' : v = some (.str (A ++ "/" ++ B)) := by
        rw [← hveq, ← optView_obj "value" hobjr2]
        exact hval2
      rw [hv'] at hh3
      obtain ⟨hva, hvb⟩ := rangeValueFix_split hh3 hA hB
      exact ⟨hpost _ _ hva, hpost _ _ hvb⟩
  · intro hval
    have hval1 : optView s1 "range" "value" = some (.str "") := by
      rw [hfv]
      exact hval
    obtain ⟨fs, hobj1, _⟩ := optView_eq_some hval1
    rcases migrateRanges_elim hr with ⟨hn, _⟩ | ⟨r1, r2, v, hh1, hh2, hhv, hh3⟩
    · rw [hn] at hobj1; cases hobj1
    · have hval2 : optView r2 "range" "value" = some (.str "") := by
        rw [updStrict_view_ne hh2 "range" "value" (Or.inr (by decide)),
          updStrict_view_ne hh1 "range" "value" (Or.inr (by decide))]
        exact hval1
      obtain ⟨fs1, hobjr1⟩ := updStrict_obj_pres hh1 hobj1
      obtain ⟨fs2, hobjr2⟩ := updStrict_obj_pres hh2 hobjr1
      rw [readPath_obj "value" hobjr2] at hhv
      obtain hveq : olookup fs2 "value" = v := by injection hhv
      have hv' : v = some (.str "") := by
        rw [← hveq, ← optView_obj "value" hobjr2]
        exact hval2
      rw [hv'] at hh3
      exact hpost _ _ (rangeValueFix_blank hh3)
  · intro hval
    have hval1 : optView s1 "range" "units" = some .null := by
      rw [hfv]
      exact hval
    obtain ⟨fs, hobj1, hufs⟩ := optView_eq_some hval1
    rcases migrateRanges_elim hr with ⟨hn, _⟩ | ⟨r1, r2, v, hh1, hh2, hhv, hh3⟩
    · rw [hn] at hobj1; cases hobj1
    · have hw1 : optView r1 "range" "units" = some (.str "") :=
        updStrict_view_write hh1 hobj1 (by rw [hufs]; rfl)
      have hw2 : optView r2 "range" "units" = some (.str "") := by
        rw [updStrict_view_ne hh2 "range" "units" (Or.inr (by decide))]
        exact hw1
      have hw3 : optView s2 "range" "units" = some (.str "") := by
        rw [rangeValueFix_view_units hh3]
        exact hw2
      exact hpost _ _ hw3

theorem migrateUses_writes {s t : Obj} (h : migrateUses s = .ok t) :
    (∀ w, strNumFix (optView s "uses" "value") = some w → optView t "uses" "value" = some w) ∧
    (∀ fs, olookup s "uses" = some (.obj fs) → olookup fs "recovery" = none →
      optView t "uses" "recovery" = some (.str "")) := by
  constructor
  · intro w hw
    obtain ⟨x, hx⟩ : ∃ x, optView s "uses" "value" = some x := by
      cases hv : optView s "uses" "value" with
      | none => rw [hv] at hw; simp at hw
      | some x => exact ⟨x, rfl⟩
    obtain ⟨fs, hobj, hval⟩ := optView_eq_some hx
    rcases migrateUses_elim h with ⟨hn, _⟩ | ⟨s1, h1, h2⟩
    · rw [hn] at hobj; cases hobj
    · have hw1 : optView s1 "uses" "value" = some w := by
        refine updStrict_view_write h1 hobj ?_
        rw [hval]
        rw [hx] at hw
        exact hw
      rw [updStrict_view_ne h2 "uses" "value" (Or.inr (by decide))]
      exact hw1
  · intro fs hobj hrec
    rcases migrateUses_elim h with ⟨hn, _⟩ | ⟨s1, h1, h2⟩
    · rw [hn] at hobj; cases hobj
    · obtain ⟨fs1, hobj1⟩ := updStrict_obj_pres h1 hobj
      have hrec1 : olookup fs1 "recovery" = none := by
        have hpr := updStrict_view_ne h1 "uses" "recovery" (Or.inr (by decide))
        rw [optView_obj "recovery" hobj1, optView_obj "recovery" hobj] at hpr
        rw [hpr]
        exact hrec
      exact updStrict_view_write h2 hobj1 (by rw [hrec1]; rfl)

theorem migrateConsume_writes {s t : Obj} (h : migrateConsume s = .ok t) :
    (optView s "consume" "type" = some .null → optView t "consume" "type" = some (.str "")) ∧
    (∀ w, strNumFix (optView s "consume" "amount") = some w →
      optView t "consume" "amount" = some w) := by
  constructor
  · intro hty
    obtain ⟨fs, hobj, hval⟩ := optView_eq_some hty
    rcases migrateConsume_elim h with ⟨hn, _⟩ | ⟨s1, h1, h2⟩
    · rw [hn] at hobj; cases hobj
    · have hw1 : optView s1 "consume" "type" = some (.str "") :=
        updStrict_view_write h1 hobj (by rw [hval]; rfl)
      rw [updStrict_view_ne h2 "consume" "type" (Or.inr (by decide))]
      exact hw1
  · intro w hw
    obtain ⟨x, hx⟩ : ∃ x, optView s "consume" "amount" = some x := by
      cases hv : optView s "consume" "amount" with
      | none => rw [hv] at hw; simp at hw
      | some x => exact ⟨x, rfl⟩
    obtain ⟨fs, hobj, hval⟩ := optView_eq_some hx
    rcases migrateConsume_elim h with ⟨hn, _⟩ | ⟨s1, h1, h2⟩
    · rw [hn] at hobj; cases hobj
    · obtain ⟨fs1, hobj1⟩ := updStrict_obj_pres h1 hobj
      have hval1 : olookup fs1 "amount" = some x := by
        have hpr := updStrict_view_ne h1 "consume" "amount" (Or.inr (by decide))
        rw [optView_obj "amount" hobj1, optView_obj "amount" hobj] at hpr
        rw [hpr]
        exact hval
      refine updStrict_view_write h2 hobj1 ?_
      rw [hval1]
      rw [hx] at hw
      exact hw

theorem migrateFormulaFields_obj_uses {s t : Obj} {fs : Obj}
    (h : migrateFormulaFields s = .ok t) (hobj : olookup s "uses" = some (.obj fs)) :
    ∃ fs', olookup t "uses" = some (.obj fs') := by
  obtain ⟨s1, h1, h2⟩ := migrateFormulaFields_elim h
  obtain ⟨fs', h'⟩ := updOpt_obj_pres h1 hobj
  exact ⟨fs', by rw [updOpt_frame h2 "uses" (by decide)]; exact h'⟩

theorem migrateData_uses_writes {s t : Obj} (h : migrateData s = .ok t) :
    (∀ w, strNumFix (optView s "uses" "value") = some w → optView t "uses" "value" = some w) ∧
    (∀ fs, olookup s "uses" = some (.obj fs) → olookup fs "recovery" = none →
      optView t "uses" "recovery" = some (.str "")) := by
  obtain ⟨s1, s2, s3, s4, hf, hr, htg, hu, hc⟩ := migrateData_elim h
  have hv13 : optView s3 "uses" "value" = optView s "uses" "value" := by
    rw [migrateTargets_view htg "uses" "value" (Or.inl (by decide)),
      migrateRanges_view hr "uses" "value" (by decide),
      migrateFormulaFields_view hf "uses" "value" (Or.inr (by decide)) (Or.inl (by decide))]
  have hr13 : optView s3 "uses" "recovery" = optView s "uses" "recovery" := by
    rw [migrateTargets_view htg "uses" "recovery" (Or.inl (by decide)),
      migrateRanges_view hr "uses" "recovery" (by decide),
      migrateFormulaFields_view hf "uses" "recovery" (Or.inr (by decide)) (Or.inl (by decide))]
  obtain ⟨hwv, hwr⟩ := migrateUses_writes hu
  constructor
  · intro w hw
    rw [migrateConsume_view hc "uses" "value" (Or.inl (by decide))]
    exact hwv w (by rw [hv13]; exact hw)
  · intro fs hobj hrec
    obtain ⟨fs1, hobj1⟩ := migrateFormulaFields_obj_uses hf hobj
    have hobj3 : olookup s3 "uses" = some (.obj fs1) := by
      rw [migrateTargets_frame htg "uses" (by decide), migrateRanges_frame hr "uses" (by decide)]
      exact hobj1
    have hrec3 : olookup fs1 "recovery" = none := by
      have hpr := hr13
      rw [optView_obj "recovery" hobj3, optView_obj "recovery" hobj, hrec] at hpr
      exact hpr
    rw [migrateConsume_view hc "uses" "recovery" (Or.inl (by decide))]
    exact hwr fs1 hobj3 hrec3

theorem migrateData_consume_writes {s t : Obj} (h : migrateData s = .ok t) :
    (optView s "consume" "type" = some .null → optView t "consume" "type" = some (.str "")) ∧
    (∀ w, strNumFix (optView s "consume" "amount") = some w →
      optView t "consume" "amount" = some w) := by
  obtain ⟨s1, s2, s3, s4, hf, hr, htg, hu, hc⟩ := migrateData_elim h
  have hpre : ∀ k2, optView s4 "consume" k2 = optView s "consume" k2 := fun k2 => by
    rw [migrateUses_view hu "consume" k2 (Or.inl (by decide)),
      migrateTargets_view htg "consume" k2 (Or.inl (by decide)),
      migrateRanges_view hr "consume" k2 (by decide),
      migrateFormulaFields_view hf "consume" k2 (Or.inl (by decide)) (Or.inl (by decide))]
  obtain ⟨hwt, hwa⟩ := migrateConsume_writes hc
  exact ⟨fun hty => hwt (by rw [hpre]; exact hty),
    fun w hw => hwa w (by rw [hpre]; exact hw)⟩

end ActivatedEffectTemplate

/-! ### Senses migration lemmas -/

theorem setPath3_obj {s : Obj} {afs gs : Obj} {k1 k2 k3 : String} (x : JVal)
    (h1 : olookup s k1 = some (.obj afs)) (h2 : olookup afs k2 = some (.obj gs)) :
    setPath3 s k1 k2 k3 x = .ok (oset s k1 (.obj (oset afs k2 (.obj (oset gs k3 x))))) := by
  unfold setPath3
  rw [h1]
  show (match olookup afs k2 with
    | some (.obj gs) => Except.ok (oset s k1 (.obj (oset afs k2 (.obj (oset gs k3 x)))))
    | _ => Except.error ()) = _
  rw [h2]

theorem setPath3_err_inner {s : Obj} {afs : Obj} {k1 k2 k3 : String} (x : JVal)
    (h1 : olookup s k1 = some (.obj afs)) (h2 : ∀ gs, olookup afs k2 ≠ some (.obj gs)) :
    setPath3 s k1 k2 k3 x = .error () := by
  unfold setPath3
  rw [h1]
  show (match olookup afs k2 with
    | some (.obj gs) => Except.ok (oset s k1 (.obj (oset afs k2 (.obj (oset gs k3 x)))))
    | _ => Except.error ()) = _
  cases hv : olookup afs k2 with
  | none => rfl
  | some w =>
    cases w with
    | obj gs => exact absurd hv (h2 gs)
    | null => rfl
    | num n => rfl
    | str t => rfl
    | bool b => rfl

namespace CreatureTemplate

theorem sensesStep_err (cfg : List String) (terms : List String) :
    terms.foldl (sensesStep cfg) (.error ()) = .error () := by
  induction terms with
  | nil => rfl
  | cons t ts ih =>
    rw [List.foldl_cons]
    have hstep : sensesStep cfg (.error ()) t = .error () := rfl
    rw [hstep, ih]

theorem sensesStep_none {cfg : List String} {term : String} (s : Obj) (wm : Bool)
    (hw : senseWrite cfg term = none) :
    sensesStep cfg (.ok (s, wm)) term = .ok (s, wm) := by
  simp only [sensesStep, hw]

theorem sensesStep_write {cfg : List String} {term : String} {k : String} {v : JVal}
    {s : Obj} {afs gs : Obj} (wm : Bool) (hw : senseWrite cfg term = some (k, v))
    (hattr : olookup s "attributes" = some (.obj afs))
    (hsen : olookup afs "senses" = some (.obj gs)) :
    sensesStep cfg (.ok (s, wm)) term =
      .ok (oset s "attributes" (.obj (oset afs "senses" (.obj (oset gs k v)))), true) := by
  simp only [sensesStep, hw, setPath3_obj v hattr hsen]

theorem sensesStep_write_prim {cfg : List String} {term : String} {k : String} {v : JVal}
    {s : Obj} {afs : Obj} {w : JVal} (wm : Bool) (hw : senseWrite cfg term = some (k, v))
    (hattr : olookup s "attributes" = some (.obj afs))
    (hsen : olookup afs "senses" = some w) (hnobj : ∀ gs, w ≠ .obj gs) :
    sensesStep cfg (.ok (s, wm)) term = .error () := by
  simp only [sensesStep, hw, setPath3_err_inner v hattr
    (by rw [hsen]; intro gs hc; exact hnobj gs (Option.some.inj hc))]

theorem sensesLoop_run (cfg : List String) (terms : List String) {s : Obj} {afs gs : Obj}
    (wm : Bool) (hattr : olookup s "attributes" = some (.obj afs))
    (hsen : olookup afs "senses" = some (.obj gs)) :
    terms.foldl (sensesStep cfg) (.ok (s, wm)) =
      .ok (oset s "attributes" (.obj (oset afs "senses"
            (.obj (osetList gs (terms.filterMap (senseWrite cfg)))))),
        wm || !(terms.filterMap (senseWrite cfg)).isEmpty) := by
  induction terms generalizing s afs gs wm with
  | nil =>
    simp only [List.foldl_nil, List.filterMap_nil, osetList_nil, List.isEmpty_nil,
      Bool.not_true, Bool.or_false]
    rw [oset_same hsen, oset_same hattr]
  | cons term ts ih =>
    rw [List.foldl_cons, List.filterMap_cons]
    cases hw : senseWrite cfg term with
    | none =>
      rw [sensesStep_none s wm hw, ih wm hattr hsen]
    | some kv =>
      obtain ⟨k, v⟩ := kv
      rw [sensesStep_write wm hw hattr hsen,
        ih true (olookup_oset_self s "attributes" _) (olookup_oset_self afs "senses" _),
        oset_absorb, oset_absorb]
      rw [show osetList (oset gs k v) (ts.filterMap (senseWrite cfg)) =
        osetList gs ((k, v) :: ts.filterMap (senseWrite cfg)) from rfl]
      simp

theorem sensesLoop_prim (cfg : List String) (terms : List String) {s : Obj} {afs : Obj}
    {w : JVal} (wm : Bool) (hattr : olookup s "attributes" = some (.obj afs))
    (hsen : olookup afs "senses" = some w) (hnobj : ∀ gs, w ≠ .obj gs) :
    terms.foldl (sensesStep cfg) (.ok (s, wm)) =
      if (terms.filterMap (senseWrite cfg)).isEmpty then .ok (s, wm) else .error () := by
  induction terms generalizing wm with
  | nil => rfl
  | cons term ts ih =>
    rw [List.foldl_cons, List.filterMap_cons]
    cases hw : senseWrite cfg term with
    | none =>
      rw [sensesStep_none s wm hw, ih wm]
    | some kv =>
      obtain ⟨k, v⟩ := kv
      rw [sensesStep_write_prim wm hw hattr hsen hnobj, sensesStep_err]
      rw [if_neg (by simp)]

end CreatureTemplate

namespace CreatureTemplate

theorem senseWrite_empty (cfg : List String) : senseWrite cfg "" = none := rfl

theorem sensesSetup_attr_nullish {s : Obj}
    (h : olookup s "attributes" = none ∨ olookup s "attributes" = some .null) :
    sensesSetup s = .ok (oset s "attributes" (.obj [("senses", .obj [])])) := by
  rcases h with h | h <;>
    simp only [sensesSetup, h, olookup_oset_self, olookup, oset, oset_absorb]

theorem sensesSetup_obj_nullish {s : Obj} {afs : Obj}
    (ha : olookup s "attributes" = some (.obj afs))
    (h : olookup afs "senses" = none ∨ olookup afs "senses" = some .null) :
    sensesSetup s = .ok (oset s "attributes" (.obj (oset afs "senses" (.obj [])))) := by
  rcases h with h | h <;> simp only [sensesSetup, ha, h]

theorem sensesSetup_obj_notnull {s : Obj} {afs : Obj} {w : JVal}
    (ha : olookup s "attributes" = some (.obj afs))
    (h : olookup afs "senses" = some w) (hnn : w ≠ .null) :
    sensesSetup s = .ok s := by
  cases w with
  | null => exact absurd rfl hnn
  | num n => simp only [sensesSetup, ha, h]
  | str t0 => simp only [sensesSetup, ha, h]
  | bool b => simp only [sensesSetup, ha, h]
  | obj gs => simp only [sensesSetup, ha, h]

theorem sensesSetup_attr_prim {s : Obj} {w : JVal}
    (ha : olookup s "attributes" = some w) (hnn : w ≠ .null)
    (hno : ∀ fs, w ≠ .obj fs) :
    sensesSetup s = .error () := by
  cases w with
  | null => exact absurd rfl hnn
  | obj fs => exact absurd rfl (hno fs)
  | num n => simp only [sensesSetup, ha]
  | str t0 => simp only [sensesSetup, ha]
  | bool b => simp only [sensesSetup, ha]

theorem notSensesString_of_view {s : Obj} {v : Option JVal}
    (hv : optView s "traits" "senses" = v) (hnv : ∀ t0 : String, v ≠ some (.str t0)) :
    notSensesString s := by
  unfold notSensesString
  rw [hv]
  cases v with
  | none => trivial
  | some w =>
    cases w with
    | str t0 => exact absurd rfl (hnv t0)
    | null => trivial
    | num n => trivial
    | bool b => trivial
    | obj fs => trivial

theorem migrateSensesData_skip {cfg : List String} {s : Obj} (h : notSensesString s) :
    migrateSensesData cfg s = .ok s := by
  cases hv : optChain (olookup s "traits") "senses" with
  | none => simp only [migrateSensesData, hv]; rfl
  | some w =>
    cases w with
    | str t0 =>
      have hv2 : optView s "traits" "senses" = some (.str t0) := hv
      have hF : False := by
        unfold notSensesString at h
        rw [hv2] at h
        exact h
      exact hF.elim
    | null => simp only [migrateSensesData, hv]; rfl
    | num n => simp only [migrateSensesData, hv]; rfl
    | bool b => simp only [migrateSensesData, hv]; rfl
    | obj fs => simp only [migrateSensesData, hv]; rfl

end CreatureTemplate

namespace CreatureTemplate

theorem migrateSensesData_run {cfg : List String} {s s2 afs gs : Obj} {original : String}
    (hsv : optView s "traits" "senses" = some (.str original))
    (hset : sensesSetup s = .ok s2)
    (hattr : olookup s2 "attributes" = some (.obj afs))
    (hsen : olookup afs "senses" = some (.obj gs)) :
    migrateSensesData cfg s =
      .ok (oset s2 "attributes" (.obj (oset afs "senses"
        (.obj (osetList gs (sensesW cfg original)))))) := by
  have hsv2 : optChain (olookup s "traits") "senses" = some (.str original) := hsv
  have hloop := sensesLoop_run cfg (jsSplit ',' original) false hattr hsen
  rw [Bool.false_or] at hloop
  simp only [migrateSensesData, hsv2]
  by_cases hws : ((jsSplit ',' original).filterMap (senseWrite cfg)).isEmpty = true
  · have hnil : (jsSplit ',' original).filterMap (senseWrite cfg) = [] :=
      List.isEmpty_iff.mp hws
    rw [hws, Bool.not_true, hnil, osetList_nil] at hloop
    by_cases ho : original = ""
    · subst ho
      have hW : sensesW cfg "" = [] := rfl
      rw [hW, osetList_nil]
      exact bindOkIntro hset (bindOkIntro hloop rfl)
    · have hW : sensesW cfg original = [("special", JVal.str original)] := by
        simp only [sensesW, hnil]
        rw [if_pos ⟨rfl, ho⟩]
      rw [hW]
      refine bindOkIntro hset (bindOkIntro hloop ?_)
      show (if ¬ false = true ∧ original ≠ "" then
            setPath3 (oset s2 "attributes" (.obj (oset afs "senses" (.obj gs))))
              "attributes" "senses" "special" (.str original)
          else pure (oset s2 "attributes" (.obj (oset afs "senses" (.obj gs))))) =
        Except.ok (oset s2 "attributes" (.obj (oset afs "senses"
          (.obj (osetList gs [("special", JVal.str original)])))))
      rw [if_pos ⟨Bool.false_ne_true, ho⟩,
        setPath3_obj (JVal.str original) (olookup_oset_self s2 "attributes" _)
          (olookup_oset_self afs "senses" _),
        oset_absorb, oset_absorb]
      rfl
  · have hws2 : ((jsSplit ',' original).filterMap (senseWrite cfg)).isEmpty = false :=
      Bool.eq_false_iff.mpr hws
    rw [hws2, Bool.not_false] at hloop
    have hW : sensesW cfg original = (jsSplit ',' original).filterMap (senseWrite cfg) := by
      simp only [sensesW]
      rw [if_neg (fun hc => hws hc.1)]
    rw [hW]
    refine bindOkIntro hset (bindOkIntro hloop ?_)
    show (if ¬ true = true ∧ original ≠ "" then
          setPath3 (oset s2 "attributes" (.obj (oset afs "senses"
            (.obj (osetList gs ((jsSplit ',' original).filterMap (senseWrite cfg)))))))
            "attributes" "senses" "special" (.str original)
        else pure (oset s2 "attributes" (.obj (oset afs "senses"
            (.obj (osetList gs ((jsSplit ',' original).filterMap (senseWrite cfg)))))))) =
      Except.ok (oset s2 "attributes" (.obj (oset afs "senses"
        (.obj (osetList gs ((jsSplit ',' original).filterMap (senseWrite cfg)))))))
    rw [if_neg (fun hc => hc.1 rfl)]
    rfl

end CreatureTemplate

namespace CreatureTemplate

theorem migrateSensesData_prim {cfg : List String} {s afs : Obj} {w : JVal}
    {original : String}
    (hsv : optView s "traits" "senses" = some (.str original))
    (ha : olookup s "attributes" = some (.obj afs))
    (hw : olookup afs "senses" = some w) (hnn : w ≠ .null)
    (hno : ∀ gs, w ≠ .obj gs) :
    migrateSensesData cfg s = if original = "" then .ok s else .error () := by
  have hsv2 : optChain (olookup s "traits") "senses" = some (.str original) := hsv
  have hset := sensesSetup_obj_notnull ha hw hnn
  have hloop := sensesLoop_prim cfg (jsSplit ',' original) false ha hw hno
  simp only [migrateSensesData, hsv2]
  by_cases ho : original = ""
  · subst ho
    rw [if_pos rfl]
    have hl : (jsSplit ',' "").foldl (sensesStep cfg) (.ok (s, false)) = .ok (s, false) := by
      rw [hloop]
      rfl
    exact bindOkIntro hset (bindOkIntro hl rfl)
  · rw [if_neg ho]
    by_cases hws : ((jsSplit ',' original).filterMap (senseWrite cfg)).isEmpty = true
    · have hl : (jsSplit ',' original).foldl (sensesStep cfg) (.ok (s, false)) =
          .ok (s, false) := by
        rw [hloop, if_pos hws]
      refine bindOkIntro hset (bindOkIntro hl ?_)
      show (if ¬ false = true ∧ original ≠ "" then
            setPath3 s "attributes" "senses" "special" (.str original)
          else pure s) = Except.error ()
      rw [if_pos ⟨Bool.false_ne_true, ho⟩,
        setPath3_err_inner (JVal.str original) ha
          (fun gs hc => hno gs (by rw [hw] at hc; exact Option.some.inj hc))]
    · have hl : (jsSplit ',' original).foldl (sensesStep cfg) (.ok (s, false)) =
          .error () := by
        rw [hloop, if_neg hws]
      refine bindOkIntro hset ?_
      show ((jsSplit ',' original).foldl (sensesStep cfg) (.ok (s, false)) >>=
          fun r => if ¬ r.2 = true ∧ original ≠ "" then
            setPath3 r.1 "attributes" "senses" "special" (.str original)
          else pure r.1) = Except.error ()
      rw [hl]
      rfl

theorem migrateSensesData_attrPrim {cfg : List String} {s : Obj} {w : JVal}
    {original : String}
    (hsv : optView s "traits" "senses" = some (.str original))
    (ha : olookup s "attributes" = some w) (hnn : w ≠ .null)
    (hno : ∀ fs, w ≠ .obj fs) :
    migrateSensesData cfg s = .error () := by
  have hsv2 : optChain (olookup s "traits") "senses" = some (.str original) := hsv
  simp only [migrateSensesData, hsv2]
  rw [sensesSetup_attr_prim ha hnn hno]
  rfl

end CreatureTemplate

namespace CreatureTemplate

theorem migrateSensesData_elim {cfg : List String} {s t : Obj}
    (h : migrateSensesData cfg s = .ok t) :
    (t = s ∧ (notSensesString s ∨ optView s "traits" "senses" = some (.str ""))) ∨
    (∃ original s2 afs gs,
      optView s "traits" "senses" = some (.str original) ∧
      sensesSetup s = .ok s2 ∧
      olookup s2 "attributes" = some (.obj afs) ∧
      olookup afs "senses" = some (.obj gs) ∧
      (∀ k, ¬ k = "attributes" → olookup s2 k = olookup s k) ∧
      t = oset s2 "attributes" (.obj (oset afs "senses"
        (.obj (osetList gs (sensesW cfg original)))))) := by
  cases hv : optChain (olookup s "traits") "senses" with
  | none =>
    have hns : notSensesString s :=
      notSensesString_of_view (v := none) hv (fun t0 hc => Option.noConfusion hc)
    rw [migrateSensesData_skip hns] at h
    exact Or.inl ⟨(Except.ok.inj h).symm, Or.inl hns⟩
  | some w =>
    cases w with
    | null =>
      have hns : notSensesString s := notSensesString_of_view hv
        (fun t0 hc => JVal.noConfusion (Option.some.inj hc))
      rw [migrateSensesData_skip hns] at h
      exact Or.inl ⟨(Except.ok.inj h).symm, Or.inl hns⟩
    | num n =>
      have hns : notSensesString s := notSensesString_of_view hv
        (fun t0 hc => JVal.noConfusion (Option.some.inj hc))
      rw [migrateSensesData_skip hns] at h
      exact Or.inl ⟨(Except.ok.inj h).symm, Or.inl hns⟩
    | bool b =>
      have hns : notSensesString s := notSensesString_of_view hv
        (fun t0 hc => JVal.noConfusion (Option.some.inj hc))
      rw [migrateSensesData_skip hns] at h
      exact Or.inl ⟨(Except.ok.inj h).symm, Or.inl hns⟩
    | obj fs =>
      have hns : notSensesString s := notSensesString_of_view hv
        (fun t0 hc => JVal.noConfusion (Option.some.inj hc))
      rw [migrateSensesData_skip hns] at h
      exact Or.inl ⟨(Except.ok.inj h).symm, Or.inl hns⟩
    | str original =>
      have hsv : optView s "traits" "senses" = some (.str original) := hv
      cases hattr : olookup s "attributes" with
      | none =>
        have hset := sensesSetup_attr_nullish (Or.inl hattr)
        have hA : olookup (oset s "attributes" (JVal.obj [("senses", JVal.obj [])]))
            "attributes" = some (JVal.obj [("senses", JVal.obj [])]) :=
          olookup_oset_self s "attributes" _
        have hS : olookup ([("senses", JVal.obj [])] : Obj) "senses" =
            some (JVal.obj []) := rfl
        rw [migrateSensesData_run hsv hset hA hS] at h
        exact Or.inr ⟨original, _, _, _, hsv, hset, hA, hS,
          fun k hk => olookup_oset_ne s _ hk, (Except.ok.inj h).symm⟩
      | some wa =>
        cases wa with
        | null =>
          have hset := sensesSetup_attr_nullish (Or.inr hattr)
          have hA : olookup (oset s "attributes" (JVal.obj [("senses", JVal.obj [])]))
              "attributes" = some (JVal.obj [("senses", JVal.obj [])]) :=
            olookup_oset_self s "attributes" _
          have hS : olookup ([("senses", JVal.obj [])] : Obj) "senses" =
              some (JVal.obj []) := rfl
          rw [migrateSensesData_run hsv hset hA hS] at h
          exact Or.inr ⟨original, _, _, _, hsv, hset, hA, hS,
            fun k hk => olookup_oset_ne s _ hk, (Except.ok.inj h).symm⟩
        | obj afs =>
          cases hsen : olookup afs "senses" with
          | none =>
            have hset := sensesSetup_obj_nullish hattr (Or.inl hsen)
            have hA : olookup (oset s "attributes"
                (JVal.obj (oset afs "senses" (JVal.obj [])))) "attributes" =
                some (JVal.obj (oset afs "senses" (JVal.obj []))) :=
              olookup_oset_self s "attributes" _
            have hS : olookup (oset afs "senses" (JVal.obj [])) "senses" =
                some (JVal.obj []) := olookup_oset_self afs "senses" _
            rw [migrateSensesData_run hsv hset hA hS] at h
            exact Or.inr ⟨original, _, _, _, hsv, hset, hA, hS,
              fun k hk => olookup_oset_ne s _ hk, (Except.ok.inj h).symm⟩
          | some ws0 =>
            cases ws0 with
            | null =>
              have hset := sensesSetup_obj_nullish hattr (Or.inr hsen)
              have hA : olookup (oset s "attributes"
                  (JVal.obj (oset afs "senses" (JVal.obj [])))) "attributes" =
                  some (JVal.obj (oset afs "senses" (JVal.obj []))) :=
                olookup_oset_self s "attributes" _
              have hS : olookup (oset afs "senses" (JVal.obj [])) "senses" =
                  some (JVal.obj []) := olookup_oset_self afs "senses" _
              rw [migrateSensesData_run hsv hset hA hS] at h
              exact Or.inr ⟨original, _, _, _, hsv, hset, hA, hS,
                fun k hk => olookup_oset_ne s _ hk, (Except.ok.inj h).symm⟩
            | obj gs =>
              have hset := sensesSetup_obj_notnull hattr hsen
                (fun hc => JVal.noConfusion hc)
              rw [migrateSensesData_run hsv hset hattr hsen] at h
              exact Or.inr ⟨original, s, afs, gs, hsv, hset, hattr, hsen,
                fun k hk => rfl, (Except.ok.inj h).symm⟩
            | num n2 =>
              rw [migrateSensesData_prim hsv hattr hsen (fun hc => JVal.noConfusion hc)
                (fun gs2 hc => JVal.noConfusion hc)] at h
              by_cases ho : original = ""
              · rw [if_pos ho] at h
                subst ho
                exact Or.inl ⟨(Except.ok.inj h).symm, Or.inr hsv⟩
              · rw [if_neg ho] at h
                exact Except.noConfusion h
            | str t2 =>
              rw [migrateSensesData_prim hsv hattr hsen (fun hc => JVal.noConfusion hc)
                (fun gs2 hc => JVal.noConfusion hc)] at h
              by_cases ho : original = ""
              · rw [if_pos ho] at h
                subst ho
                exact Or.inl ⟨(Except.ok.inj h).symm, Or.inr hsv⟩
              · rw [if_neg ho] at h
                exact Except.noConfusion h
            | bool b2 =>
              rw [migrateSensesData_prim hsv hattr hsen (fun hc => JVal.noConfusion hc)
                (fun gs2 hc => JVal.noConfusion hc)] at h
              by_cases ho : original = ""
              · rw [if_pos ho] at h
                subst ho
                exact Or.inl ⟨(Except.ok.inj h).symm, Or.inr hsv⟩
              · rw [if_neg ho] at h
                exact Except.noConfusion h
        | num na =>
          rw [migrateSensesData_attrPrim hsv hattr (fun hc => JVal.noConfusion hc)
            (fun fs hc => JVal.noConfusion hc)] at h
          exact Except.noConfusion h
        | str ta =>
          rw [migrateSensesData_attrPrim hsv hattr (fun hc => JVal.noConfusion hc)
            (fun fs hc => JVal.noConfusion hc)] at h
          exact Except.noConfusion h
        | bool ba =>
          rw [migrateSensesData_attrPrim hsv hattr (fun hc => JVal.noConfusion hc)
            (fun fs hc => JVal.noConfusion hc)] at h
          exact Except.noConfusion h

end CreatureTemplate

namespace CreatureTemplate

theorem migrateSensesData_again {cfg : List String} {s s2 afs gs t : Obj}
    {original : String}
    (hsv : optView s "traits" "senses" = some (.str original))
    (hfr : ∀ k, ¬ k = "attributes" → olookup s2 k = olookup s k)
    (ht : t = oset s2 "attributes" (.obj (oset afs "senses"
      (.obj (osetList gs (sensesW cfg original)))))) :
    migrateSensesData cfg t = .ok t := by
  subst ht
  have htr : olookup (oset s2 "attributes" (JVal.obj (oset afs "senses"
      (JVal.obj (osetList gs (sensesW cfg original)))))) "traits" =
      olookup s "traits" := by
    rw [olookup_oset_ne s2 _ (by decide)]
    exact hfr "traits" (by decide)
  have hsvt : optView (oset s2 "attributes" (JVal.obj (oset afs "senses"
      (JVal.obj (osetList gs (sensesW cfg original)))))) "traits" "senses" =
      some (JVal.str original) := by
    unfold optView
    rw [htr]
    exact hsv
  have hA : olookup (oset s2 "attributes" (JVal.obj (oset afs "senses"
      (JVal.obj (osetList gs (sensesW cfg original)))))) "attributes" =
      some (JVal.obj (oset afs "senses" (JVal.obj (osetList gs (sensesW cfg original))))) :=
    olookup_oset_self s2 "attributes" _
  have hS : olookup (oset afs "senses" (JVal.obj (osetList gs (sensesW cfg original))))
      "senses" = some (JVal.obj (osetList gs (sensesW cfg original))) :=
    olookup_oset_self afs "senses" _
  have hset := sensesSetup_obj_notnull hA hS (fun hc => JVal.noConfusion hc)
  rw [migrateSensesData_run hsvt hset hA hS, osetList_idem, oset_absorb, oset_absorb]

theorem migrateSensesData_idem {cfg : List String} {s t : Obj}
    (h : migrateSensesData cfg s = .ok t) : migrateSensesData cfg t = .ok t := by
  rcases migrateSensesData_elim h with ⟨h1, _⟩ |
    ⟨original, s2, afs, gs, hsv, _, _, _, hfr, ht⟩
  · rw [h1]
    rw [h1] at h
    exact h
  · exact migrateSensesData_again hsv hfr ht

theorem migrateSensesData_frame {cfg : List String} {s t : Obj}
    (h : migrateSensesData cfg s = .ok t) (k : String) (hk : ¬ k = "attributes") :
    olookup t k = olookup s k := by
  rcases migrateSensesData_elim h with ⟨h1, _⟩ |
    ⟨original, s2, afs, gs, _, _, _, _, hfr, ht⟩
  · rw [h1]
  · rw [ht, olookup_oset_ne s2 _ hk]
    exact hfr k hk

theorem migrateSensesData_ok_shape {cfg : List String} {s : Obj} (h : sensesShapeOK s) :
    ∃ t, migrateSensesData cfg s = .ok t := by
  cases hv : optChain (olookup s "traits") "senses" with
  | none =>
    exact ⟨s, migrateSensesData_skip (notSensesString_of_view (v := none) hv
      (fun t0 hc => Option.noConfusion hc))⟩
  | some w =>
    cases w with
    | str original =>
      have hsv : optView s "traits" "senses" = some (JVal.str original) := hv
      rcases h with ha | ha | ⟨afs, ha, hsen⟩
      · exact ⟨_, migrateSensesData_run hsv (sensesSetup_attr_nullish (Or.inl ha))
          (olookup_oset_self s "attributes" _) rfl⟩
      · exact ⟨_, migrateSensesData_run hsv (sensesSetup_attr_nullish (Or.inr ha))
          (olookup_oset_self s "attributes" _) rfl⟩
      · rcases hsen with hs1 | hs1 | ⟨gs, hs1⟩
        · exact ⟨_, migrateSensesData_run hsv (sensesSetup_obj_nullish ha (Or.inl hs1))
            (olookup_oset_self s "attributes" _) (olookup_oset_self afs "senses" _)⟩
        · exact ⟨_, migrateSensesData_run hsv (sensesSetup_obj_nullish ha (Or.inr hs1))
            (olookup_oset_self s "attributes" _) (olookup_oset_self afs "senses" _)⟩
        · exact ⟨_, migrateSensesData_run hsv
            (sensesSetup_obj_notnull ha hs1 (fun hc => JVal.noConfusion hc)) ha hs1⟩
    | null =>
      exact ⟨s, migrateSensesData_skip (notSensesString_of_view hv
        (fun t0 hc => JVal.noConfusion (Option.some.inj hc)))⟩
    | num n =>
      exact ⟨s, migrateSensesData_skip (notSensesString_of_view hv
        (fun t0 hc => JVal.noConfusion (Option.some.inj hc)))⟩
    | bool b =>
      exact ⟨s, migrateSensesData_skip (notSensesString_of_view hv
        (fun t0 hc => JVal.noConfusion (Option.some.inj hc)))⟩
    | obj fs =>
      exact ⟨s, migrateSensesData_skip (notSensesString_of_view hv
        (fun t0 hc => JVal.noConfusion (Option.some.inj hc)))⟩

end CreatureTemplate

theorem optView3_write {s2 afs gs : Obj} {ws : List (String × JVal)} {k : String}
    {v : JVal} (hlook : olookup (osetList gs ws) k = some v) :
    optView3 (oset s2 "attributes" (.obj (oset afs "senses" (.obj (osetList gs ws)))))
      "attributes" "senses" k = some v := by
  show optChain (optChain (olookup (oset s2 "attributes" (JVal.obj (oset afs "senses"
    (JVal.obj (osetList gs ws))))) "attributes") "senses") k = some v
  rw [olookup_oset_self]
  show optChain (olookup (oset afs "senses" (JVal.obj (osetList gs ws))) "senses") k =
    some v
  rw [olookup_oset_self]
  show olookup (osetList gs ws) k = some v
  exact hlook

/-! ### Claim theorems -/

/-- C1: each migration function is idempotent: after a successful run of
`ActivatedEffectTemplate.migrateData` (or of any of its five sub-migrations), or
of the `CreatureTemplate` senses migration, running the same migration again
succeeds and returns its input unchanged. -/
theorem C1_idempotence (cfg : List String) (s t : Obj) :
    (ActivatedEffectTemplate.migrateData s = .ok t →
      ActivatedEffectTemplate.migrateData t = .ok t) ∧
    (ActivatedEffectTemplate.migrateFormulaFields s = .ok t →
      ActivatedEffectTemplate.migrateFormulaFields t = .ok t) ∧
    (ActivatedEffectTemplate.migrateRanges s = .ok t →
      ActivatedEffectTemplate.migrateRanges t = .ok t) ∧
    (ActivatedEffectTemplate.migrateTargets s = .ok t →
      ActivatedEffectTemplate.migrateTargets t = .ok t) ∧
    (ActivatedEffectTemplate.migrateUses s = .ok t →
      ActivatedEffectTemplate.migrateUses t = .ok t) ∧
    (ActivatedEffectTemplate.migrateConsume s = .ok t →
      ActivatedEffectTemplate.migrateConsume t = .ok t) ∧
    (CreatureTemplate.migrateSensesData cfg s = .ok t →
      CreatureTemplate.migrateSensesData cfg t = .ok t) :=
  ⟨ActivatedEffectTemplate.migrateData_idem,
   ActivatedEffectTemplate.migrateFormulaFields_idem,
   ActivatedEffectTemplate.migrateRanges_idem,
   ActivatedEffectTemplate.migrateTargets_idem,
   ActivatedEffectTemplate.migrateUses_idem,
   ActivatedEffectTemplate.migrateConsume_idem,
   CreatureTemplate.migrateSensesData_idem⟩

/-- C1 witness: concrete idempotence instances for all seven migration
functions, on the outputs of concrete first runs. -/
theorem C1_idempotence_witness :
    ActivatedEffectTemplate.migrateData
        [("uses", JVal.obj [("max", JVal.str ""), ("recovery", JVal.str "")]),
         ("duration", JVal.obj [("value", JVal.str "7")])] =
      .ok [("uses", JVal.obj [("max", JVal.str ""), ("recovery", JVal.str "")]),
         ("duration", JVal.obj [("value", JVal.str "7")])] ∧
    ActivatedEffectTemplate.migrateFormulaFields
        [("uses", JVal.obj [("max", JVal.str "7")])] =
      .ok [("uses", JVal.obj [("max", JVal.str "7")])] ∧
    ActivatedEffectTemplate.migrateRanges
        [("range", JVal.obj [("value", JVal.num 100), ("units", JVal.str ""),
          ("long", JVal.num 400)])] =
      .ok [("range", JVal.obj [("value", JVal.num 100), ("units", JVal.str ""),
          ("long", JVal.num 400)])] ∧
    ActivatedEffectTemplate.migrateTargets
        [("target", JVal.obj [("value", JVal.null), ("units", JVal.str ""),
          ("type", JVal.str "")])] =
      .ok [("target", JVal.obj [("value", JVal.null), ("units", JVal.str ""),
          ("type", JVal.str "")])] ∧
    ActivatedEffectTemplate.migrateUses
        [("uses", JVal.obj [("value", JVal.num 3), ("recovery", JVal.str "")])] =
      .ok [("uses", JVal.obj [("value", JVal.num 3), ("recovery", JVal.str "")])] ∧
    ActivatedEffectTemplate.migrateConsume
        [("consume", JVal.obj [("type", JVal.str ""), ("amount", JVal.num 2)])] =
      .ok [("consume", JVal.obj [("type", JVal.str ""), ("amount", JVal.num 2)])] ∧
    CreatureTemplate.migrateSensesData ["darkvision", "blindsight", "tremorsense", "truesight"]
        [("traits", JVal.obj [("senses", JVal.str "Darkvision 60 ft, Blindsight 30 ft")]),
         ("attributes", JVal.obj [("senses", JVal.obj [("darkvision", JVal.num 60),
           ("blindsight", JVal.num 30)])])] =
      .ok [("traits", JVal.obj [("senses", JVal.str "Darkvision 60 ft, Blindsight 30 ft")]),
         ("attributes", JVal.obj [("senses", JVal.obj [("darkvision", JVal.num 60),
           ("blindsight", JVal.num 30)])])] :=
  ⟨(C1_idempotence [] [("uses", JVal.obj [("max", JVal.num 0)]),
      ("duration", JVal.obj [("value", JVal.num 7)])]
      [("uses", JVal.obj [("max", JVal.str ""), ("recovery", JVal.str "")]),
       ("duration", JVal.obj [("value", JVal.str "7")])]).1 rfl,
   (C1_idempotence [] [("uses", JVal.obj [("max", JVal.num 7)])]
      [("uses", JVal.obj [("max", JVal.str "7")])]).2.1 rfl,
   (C1_idempotence [] [("range", JVal.obj [("value", JVal.str "100/400"),
        ("units", JVal.null)])]
      [("range", JVal.obj [("value", JVal.num 100), ("units", JVal.str ""),
        ("long", JVal.num 400)])]).2.2.1 rfl,
   (C1_idempotence [] [("target", JVal.obj [("value", JVal.str ""), ("units", JVal.null),
        ("type", JVal.null)])]
      [("target", JVal.obj [("value", JVal.null), ("units", JVal.str ""),
        ("type", JVal.str "")])]).2.2.2.1 rfl,
   (C1_idempotence [] [("uses", JVal.obj [("value", JVal.str "3")])]
      [("uses", JVal.obj [("value", JVal.num 3), ("recovery", JVal.str "")])]).2.2.2.2.1 rfl,
   (C1_idempotence [] [("consume", JVal.obj [("type", JVal.null), ("amount", JVal.str "2")])]
      [("consume", JVal.obj [("type", JVal.str ""), ("amount", JVal.num 2)])]).2.2.2.2.2.1 rfl,
   (C1_idempotence ["darkvision", "blindsight", "tremorsense", "truesight"]
      [("traits", JVal.obj [("senses", JVal.str "Darkvision 60 ft, Blindsight 30 ft")])]
      [("traits", JVal.obj [("senses", JVal.str "Darkvision 60 ft, Blindsight 30 ft")]),
       ("attributes", JVal.obj [("senses", JVal.obj [("darkvision", JVal.num 60),
         ("blindsight", JVal.num 30)])])]).2.2.2.2.2.2 rfl⟩

/-- C2 (amended): migration can fail on malformed containers (see the
counterexample), but terminates normally on well-shaped ones:
`ActivatedEffectTemplate.migrateData` succeeds whenever `range` and `consume`
are not `null` and `uses` is an object or absent, and the senses migration
succeeds whenever `attributes` and `attributes.senses` are each an object,
`null`, or absent. -/
theorem C2_success_under_shape {cfg : List String} {s u : Obj}
    (hr : NotNullAt s "range") (hu : ObjOrAbsentAt s "uses")
    (hc : NotNullAt s "consume") (hs : sensesShapeOK u) :
    (∃ t, ActivatedEffectTemplate.migrateData s = .ok t) ∧
    (∃ t, CreatureTemplate.migrateSensesData cfg u = .ok t) :=
  ⟨ActivatedEffectTemplate.migrateData_ok_shape hr hu hc,
   CreatureTemplate.migrateSensesData_ok_shape hs⟩

/-- C2 counterexample: `migrateData` does not terminate normally on every
source: `{range: null}` passes the `"range" in source` guard and then
`source.range.units` is read on `null`, a TypeError. -/
theorem C2_counterexample :
    ActivatedEffectTemplate.migrateData [("range", JVal.null)] = .error () := rfl

/-- C2 witness: the shape hypotheses hold for the empty object, on which both
migrations succeed. -/
theorem C2_success_under_shape_witness :
    (∃ t, ActivatedEffectTemplate.migrateData [] = .ok t) ∧
    (∃ t, CreatureTemplate.migrateSensesData ["darkvision"] [] = .ok t) :=
  @C2_success_under_shape ["darkvision"] [] []
    (fun hx => Option.noConfusion hx) (Or.inl rfl)
    (fun hx => Option.noConfusion hx) (Or.inl rfl)

/-- C3 (amended): when `traits.senses` is a nonempty string none of whose
comma-separated terms produces a sense write, a successful senses migration
stores the whole original string in `attributes.senses.special`.  (For the
empty string the `!wasMatched && original` guard is falsy and no fallback is
written, refuting the unrestricted claim.) -/
theorem C3_special_fallback {cfg : List String} {s t : Obj} {original : String}
    (hsv : optView s "traits" "senses" = some (.str original))
    (hne : original ≠ "")
    (hnw : (jsSplit ',' original).filterMap (CreatureTemplate.senseWrite cfg) = [])
    (h : CreatureTemplate.migrateSensesData cfg s = .ok t) :
    optView3 t "attributes" "senses" "special" = some (.str original) := by
  rcases CreatureTemplate.migrateSensesData_elim h with ⟨_, hcase⟩ |
    ⟨orig2, s2, afs, gs, hsv2, _, _, _, _, ht⟩
  · rcases hcase with hns | hempty
    · have hF : False := by
        unfold notSensesString at hns
        rw [hsv] at hns
        exact hns
      exact hF.elim
    · exact absurd (JVal.str.inj (Option.some.inj (hsv.symm.trans hempty))) hne
  · obtain rfl : original = orig2 :=
      (JVal.str.inj (Option.some.inj (hsv2.symm.trans hsv))).symm
    subst ht
    have hW : CreatureTemplate.sensesW cfg original = [("special", JVal.str original)] := by
      simp only [CreatureTemplate.sensesW, hnw]
      rw [if_pos ⟨rfl, hne⟩]
    refine optView3_write ?_
    rw [hW]
    show olookup (oset gs "special" (JVal.str original)) "special" =
      some (JVal.str original)
    exact olookup_oset_self gs "special" _

/-- C3 counterexample: an empty `traits.senses` string has no matching term,
yet migration succeeds without writing `attributes.senses.special`, so the
original string is not stored verbatim in the fallback field. -/
theorem C3_counterexample :
    CreatureTemplate.migrateSensesData
        ["darkvision", "blindsight", "tremorsense", "truesight"]
        [("traits", JVal.obj [("senses", JVal.str "")])] =
      .ok [("traits", JVal.obj [("senses", JVal.str "")]),
           ("attributes", JVal.obj [("senses", JVal.obj [])])] ∧
    optView3 [("traits", JVal.obj [("senses", JVal.str "")]),
        ("attributes", JVal.obj [("senses", JVal.obj [])])]
      "attributes" "senses" "special" = none :=
  ⟨rfl, rfl⟩

/-- C3 witness: the unmatched nonempty free text "blah" is stored verbatim in
`attributes.senses.special`. -/
theorem C3_special_fallback_witness :
    optView3 [("traits", JVal.obj [("senses", JVal.str "blah")]),
        ("attributes", JVal.obj [("senses", JVal.obj [("special", JVal.str "blah")])])]
      "attributes" "senses" "special" = some (JVal.str "blah") :=
  @C3_special_fallback ["darkvision", "blindsight", "tremorsense", "truesight"]
    [("traits", JVal.obj [("senses", JVal.str "blah")])]
    [("traits", JVal.obj [("senses", JVal.str "blah")]),
     ("attributes", JVal.obj [("senses", JVal.obj [("special", JVal.str "blah")])])]
    "blah" rfl (by decide) rfl rfl

/-- C4: after a successful `migrateData`, a `uses.max` or `duration.value` that
was `0`, `"0"` or `null` equals `""`, one that was any other number equals its
decimal string rendering, and neither field holds a number afterwards. -/
theorem C4_formula_fields {s t : Obj}
    (h : ActivatedEffectTemplate.migrateData s = .ok t) :
    (optView s "uses" "max" = some (.num 0) ∨ optView s "uses" "max" = some (.str "0") ∨
        optView s "uses" "max" = some .null →
      optView t "uses" "max" = some (.str "")) ∧
    (∀ n : Int, n ≠ 0 → optView s "uses" "max" = some (.num n) →
      optView t "uses" "max" = some (.str (jsIntToString n))) ∧
    (optView s "duration" "value" = some (.num 0) ∨
        optView s "duration" "value" = some (.str "0") ∨
        optView s "duration" "value" = some .null →
      optView t "duration" "value" = some (.str "")) ∧
    (∀ n : Int, n ≠ 0 → optView s "duration" "value" = some (.num n) →
      optView t "duration" "value" = some (.str (jsIntToString n))) ∧
    (∀ n : Int, ¬ optView t "uses" "max" = some (.num n)) ∧
    (∀ n : Int, ¬ optView t "duration" "value" = some (.num n)) := by
  obtain ⟨hw1, hw2⟩ := ActivatedEffectTemplate.migrateData_formula_writes h
  obtain ⟨hfix1, hfix2, _⟩ := ActivatedEffectTemplate.migrateData_fixed h
  refine ⟨?_, ?_, ?_, ?_, ?_, ?_⟩
  · rintro (hv | hv | hv)
    · exact hw1 _ (by rw [hv]; rfl)
    · exact hw1 _ (by rw [hv]; rfl)
    · exact hw1 _ (by rw [hv]; rfl)
  · intro n hn hv
    refine hw1 _ ?_
    rw [hv]
    show (if n = 0 then some (JVal.str "") else some (JVal.str (jsIntToString n))) =
      some (JVal.str (jsIntToString n))
    rw [if_neg hn]
  · rintro (hv | hv | hv)
    · exact hw2 _ (by rw [hv]; rfl)
    · exact hw2 _ (by rw [hv]; rfl)
    · exact hw2 _ (by rw [hv]; rfl)
  · intro n hn hv
    refine hw2 _ ?_
    rw [hv]
    show (if n = 0 then some (JVal.str "") else some (JVal.str (jsIntToString n))) =
      some (JVal.str (jsIntToString n))
    rw [if_neg hn]
  · intro n hv
    rw [hv] at hfix1
    exact ActivatedEffectTemplate.formulaFix_num_ne_none n hfix1
  · intro n hv
    rw [hv] at hfix2
    exact ActivatedEffectTemplate.formulaFix_num_ne_none n hfix2

/-- C4 witness: a zero `uses.max` becomes `""` and a `duration.value` of `7`
becomes `"7"`. -/
theorem C4_formula_fields_witness :
    optView [("uses", JVal.obj [("max", JVal.str ""), ("recovery", JVal.str "")]),
        ("duration", JVal.obj [("value", JVal.str "7")])] "uses" "max" =
      some (JVal.str "") ∧
    optView [("uses", JVal.obj [("max", JVal.str ""), ("recovery", JVal.str "")]),
        ("duration", JVal.obj [("value", JVal.str "7")])] "duration" "value" =
      some (JVal.str "7") := by
  have h := @C4_formula_fields
    [("uses", JVal.obj [("max", JVal.num 0)]), ("duration", JVal.obj [("value", JVal.num 7)])]
    [("uses", JVal.obj [("max", JVal.str ""), ("recovery", JVal.str "")]),
     ("duration", JVal.obj [("value", JVal.str "7")])] rfl
  exact ⟨h.1 (Or.inl rfl), h.2.2.2.1 7 (by decide) rfl⟩

/-- C5: after a successful `migrateData`, a `range.value` of the shape `"A/B"`
with numeric halves is split into a numeric `range.value` and `range.long`, a
blank `range.value` string becomes `null`, and a `null` `range.units` becomes
`""`. -/
theorem C5_range_split {s t : Obj}
    (h : ActivatedEffectTemplate.migrateData s = .ok t) :
    (∀ A B, isNumericStr A = true → isNumericStr B = true →
      optView s "range" "value" = some (.str (A ++ "/" ++ B)) →
      optView t "range" "value" = some (.num (numOf A)) ∧
      optView t "range" "long" = some (.num (numOf B))) ∧
    (optView s "range" "value" = some (.str "") →
      optView t "range" "value" = some .null) ∧
    (optView s "range" "units" = some .null →
      optView t "range" "units" = some (.str "")) :=
  ActivatedEffectTemplate.migrateData_range h

/-- C5 witness: `"100/400"` is split into `value = 100` and `long = 400`, and a
`null` `units` becomes `""`. -/
theorem C5_range_split_witness :
    optView [("range", JVal.obj [("value", JVal.num 100), ("units", JVal.str ""),
        ("long", JVal.num 400)])] "range" "value" = some (JVal.num 100) ∧
    optView [("range", JVal.obj [("value", JVal.num 100), ("units", JVal.str ""),
        ("long", JVal.num 400)])] "range" "long" = some (JVal.num 400) ∧
    optView [("range", JVal.obj [("value", JVal.num 100), ("units", JVal.str ""),
        ("long", JVal.num 400)])] "range" "units" = some (JVal.str "") := by
  have h := @C5_range_split
    [("range", JVal.obj [("value", JVal.str "100/400"), ("units", JVal.null)])]
    [("range", JVal.obj [("value", JVal.num 100), ("units", JVal.str ""),
      ("long", JVal.num 400)])] rfl
  exact ⟨(h.1 "100" "400" rfl rfl rfl).1, (h.1 "100" "400" rfl rfl rfl).2, h.2.2 rfl⟩

/-- C6: for a string `traits.senses`, every comma-separated term that matches
the name-then-number pattern, whose lowercased name is a configured sense type,
and whose key is not overwritten by a later term, ends up as a numeric property
of `attributes.senses` under the lowercased name; the stored value is the
parsed number, on which rounding to the nearest 0.5 is the identity. -/
theorem C6_term_parsing {cfg : List String} {s t : Obj} {original term : String}
    {ts1 ts2 : List String} {name digs : String} {n : Nat}
    (hsv : optView s "traits" "senses" = some (.str original))
    (hsplit : jsSplit ',' original = ts1 ++ term :: ts2)
    (hmatch : findMatch (jsTrim term).data = some (name, digs))
    (hkey : cfg.contains (jsToLower name) = true)
    (hdigs : digitsVal digs.data = some n)
    (hlast : ∀ t2 ∈ ts2, ∀ v2,
      CreatureTemplate.senseWrite cfg t2 ≠ some (jsToLower name, v2))
    (h : CreatureTemplate.migrateSensesData cfg s = .ok t) :
    optView3 t "attributes" "senses" (jsToLower name) = some (.num (sensesValue n)) ∧
    ((sensesValue n : Int) : Rat) = toNearestHalf (n : Rat) := by
  have hsw : CreatureTemplate.senseWrite cfg term =
      some (jsToLower name, .num (sensesValue n)) := by
    simp only [CreatureTemplate.senseWrite, hmatch, hdigs, Option.getD_some]
    rw [if_pos hkey]
  refine ⟨?_, (toNearestHalf_natCast n).symm⟩
  rcases CreatureTemplate.migrateSensesData_elim h with ⟨_, hcase⟩ |
    ⟨orig2, s2, afs, gs, hsv2, _, _, _, _, ht⟩
  · rcases hcase with hns | hempty
    · have hF : False := by
        unfold notSensesString at hns
        rw [hsv] at hns
        exact hns
      exact hF.elim
    · have ho : original = "" := JVal.str.inj (Option.some.inj (hsv.symm.trans hempty))
      subst ho
      have h1 : ts1 ++ term :: ts2 = [""] := by rw [← hsplit]; rfl
      have hterm : term = "" := by
        cases ts1 with
        | nil =>
          rw [List.nil_append] at h1
          exact (List.cons.inj h1).1
        | cons a l =>
          rw [List.cons_append] at h1
          exact absurd (List.cons.inj h1).2 (by simp)
      rw [hterm, CreatureTemplate.senseWrite_empty] at hsw
      exact Option.noConfusion hsw
  · obtain rfl : original = orig2 :=
      (JVal.str.inj (Option.some.inj (hsv2.symm.trans hsv))).symm
    subst ht
    have hcons : List.filterMap (CreatureTemplate.senseWrite cfg) (term :: ts2) =
        (jsToLower name, JVal.num (sensesValue n)) ::
          ts2.filterMap (CreatureTemplate.senseWrite cfg) := by
      simp only [List.filterMap_cons, hsw]
    have hws : (jsSplit ',' original).filterMap (CreatureTemplate.senseWrite cfg) =
        ts1.filterMap (CreatureTemplate.senseWrite cfg) ++
          (jsToLower name, JVal.num (sensesValue n)) ::
            ts2.filterMap (CreatureTemplate.senseWrite cfg) := by
      rw [hsplit, List.filterMap_append, hcons]
    have hNE : ¬ (((jsSplit ',' original).filterMap
        (CreatureTemplate.senseWrite cfg)).isEmpty = true ∧ original ≠ "") := by
      rintro ⟨h1, _⟩
      rw [hws] at h1
      simp at h1
    have hWs : CreatureTemplate.sensesW cfg original =
        (jsSplit ',' original).filterMap (CreatureTemplate.senseWrite cfg) := by
      simp only [CreatureTemplate.sensesW]
      rw [if_neg hNE]
    have hlast2 : ∀ p ∈ ts2.filterMap (CreatureTemplate.senseWrite cfg),
        p.1 ≠ jsToLower name := by
      intro p hp
      obtain ⟨pk, pv⟩ := p
      intro hpk
      obtain ⟨t2, ht2, hw2⟩ := List.mem_filterMap.mp hp
      have hpk2 : pk = jsToLower name := hpk
      subst hpk2
      exact hlast t2 ht2 pv hw2
    refine optView3_write ?_
    rw [hWs, hws]
    exact olookup_osetList_last gs (ts1.filterMap (CreatureTemplate.senseWrite cfg))
      (jsToLower name) (JVal.num (sensesValue n)) hlast2

/-- C6 witness: in `"Darkvision 60 ft, Blindsight 30 ft"` the second term writes
`attributes.senses.blindsight = 30`. -/
theorem C6_term_parsing_witness :
    optView3 [("traits", JVal.obj [("senses",
        JVal.str "Darkvision 60 ft, Blindsight 30 ft")]),
        ("attributes", JVal.obj [("senses", JVal.obj [("darkvision", JVal.num 60),
          ("blindsight", JVal.num 30)])])]
      "attributes" "senses" "blindsight" = some (JVal.num 30) :=
  (@C6_term_parsing ["darkvision", "blindsight", "tremorsense", "truesight"]
    [("traits", JVal.obj [("senses", JVal.str "Darkvision 60 ft, Blindsight 30 ft")])]
    [("traits", JVal.obj [("senses", JVal.str "Darkvision 60 ft, Blindsight 30 ft")]),
     ("attributes", JVal.obj [("senses", JVal.obj [("darkvision", JVal.num 60),
       ("blindsight", JVal.num 30)])])]
    "Darkvision 60 ft, Blindsight 30 ft" " Blindsight 30 ft"
    ["Darkvision 60 ft"] [] "Blindsight" "30" 30
    rfl rfl rfl rfl rfl
    (fun t2 ht2 => absurd ht2 (List.not_mem_nil t2)) rfl).1

/-- C7: after a successful `migrateData`, a blank-string `uses.value` becomes
`null` and a numeric-string one becomes the number; a missing `uses.recovery`
becomes `""` when `uses` is an object; a `null` `consume.type` becomes `""`;
and a blank-string or numeric-string `consume.amount` becomes `null` or the
number respectively. -/
theorem C7_uses_consume {s t : Obj}
    (h : ActivatedEffectTemplate.migrateData s = .ok t) :
    (optView s "uses" "value" = some (.str "") →
      optView t "uses" "value" = some .null) ∧
    (∀ u : String, u ≠ "" → isNumericStr u = true →
      optView s "uses" "value" = some (.str u) →
      optView t "uses" "value" = some (.num (numOf u))) ∧
    (∀ fs, olookup s "uses" = some (.obj fs) → olookup fs "recovery" = none →
      optView t "uses" "recovery" = some (.str "")) ∧
    (optView s "consume" "type" = some .null →
      optView t "consume" "type" = some (.str "")) ∧
    (optView s "consume" "amount" = some (.str "") →
      optView t "consume" "amount" = some .null) ∧
    (∀ u : String, u ≠ "" → isNumericStr u = true →
      optView s "consume" "amount" = some (.str u) →
      optView t "consume" "amount" = some (.num (numOf u))) := by
  obtain ⟨huv, hur⟩ := ActivatedEffectTemplate.migrateData_uses_writes h
  obtain ⟨hct, hca⟩ := ActivatedEffectTemplate.migrateData_consume_writes h
  refine ⟨?_, ?_, hur, hct, ?_, ?_⟩
  · intro hv
    exact huv .null (by rw [hv]; rfl)
  · intro u hne hnum hv
    refine huv _ ?_
    rw [hv]
    show (if u = "" then some JVal.null
      else if isNumericStr u then some (JVal.num (numOf u)) else none) =
      some (JVal.num (numOf u))
    rw [if_neg hne, if_pos hnum]
  · intro hv
    exact hca .null (by rw [hv]; rfl)
  · intro u hne hnum hv
    refine hca _ ?_
    rw [hv]
    show (if u = "" then some JVal.null
      else if isNumericStr u then some (JVal.num (numOf u)) else none) =
      some (JVal.num (numOf u))
    rw [if_neg hne, if_pos hnum]

/-- C7 witness: `uses.value` `"3"` becomes `3` with `recovery` defaulted to
`""`, and `consume` `{type: null, amount: "2"}` becomes `{type: "", amount: 2}`. -/
theorem C7_uses_consume_witness :
    optView [("uses", JVal.obj [("value", JVal.num 3), ("recovery", JVal.str "")])]
      "uses" "value" = some (JVal.num 3) ∧
    optView [("uses", JVal.obj [("value", JVal.num 3), ("recovery", JVal.str "")])]
      "uses" "recovery" = some (JVal.str "") ∧
    optView [("consume", JVal.obj [("type", JVal.str ""), ("amount", JVal.num 2)])]
      "consume" "type" = some (JVal.str "") ∧
    optView [("consume", JVal.obj [("type", JVal.str ""), ("amount", JVal.num 2)])]
      "consume" "amount" = some (JVal.num 2) := by
  have h1 := @C7_uses_consume [("uses", JVal.obj [("value", JVal.str "3")])]
    [("uses", JVal.obj [("value", JVal.num 3), ("recovery", JVal.str "")])] rfl
  have h2 := @C7_uses_consume
    [("consume", JVal.obj [("type", JVal.null), ("amount", JVal.str "2")])]
    [("consume", JVal.obj [("type", JVal.str ""), ("amount", JVal.num 2)])] rfl
  exact ⟨h1.2.1 "3" (by decide) rfl rfl, h1.2.2.1 [("value", JVal.str "3")] rfl rfl,
    h2.2.2.2.1 rfl, h2.2.2.2.2.2 "2" (by decide) rfl rfl⟩

/-- C8: when `traits.senses` is absent or not a string (in particular when it
already holds the object-shaped senses data), the senses migration returns the
source object entirely unchanged. -/
theorem C8_nonstring_untouched {cfg : List String} {s : Obj}
    (h : notSensesString s) :
    CreatureTemplate.migrateSensesData cfg s = .ok s :=
  CreatureTemplate.migrateSensesData_skip h

/-- C8 witness: object-shaped senses data is left untouched. -/
theorem C8_nonstring_untouched_witness :
    CreatureTemplate.migrateSensesData ["darkvision"]
        [("traits", JVal.obj [("senses", JVal.obj [("darkvision", JVal.num 60)])])] =
      .ok [("traits", JVal.obj [("senses", JVal.obj [("darkvision", JVal.num 60)])])] :=
  @C8_nonstring_untouched ["darkvision"]
    [("traits", JVal.obj [("senses", JVal.obj [("darkvision", JVal.num 60)])])]
    True.intro

/-- C9: a successful `migrateData` modifies at most the `duration`, `range`,
`target`, `uses` and `consume` properties; every other property of the source
is unchanged. -/
theorem C9_frame {s t : Obj} (h : ActivatedEffectTemplate.migrateData s = .ok t)
    (k : String) (h1 : k ≠ "duration") (h2 : k ≠ "range") (h3 : k ≠ "target")
    (h4 : k ≠ "uses") (h5 : k ≠ "consume") : olookup t k = olookup s k :=
  ActivatedEffectTemplate.migrateData_frame h k h1 h2 h3 h4 h5

/-- C9 witness: an unrelated `activation` property survives a migration that
rewrites `range.units`. -/
theorem C9_frame_witness :
    olookup [("activation", JVal.num 1), ("range", JVal.obj [("units", JVal.str "")])]
      "activation" =
    olookup [("activation", JVal.num 1), ("range", JVal.obj [("units", JVal.null)])]
      "activation" :=
  @C9_frame [("activation", JVal.num 1), ("range", JVal.obj [("units", JVal.null)])]
    [("activation", JVal.num 1), ("range", JVal.obj [("units", JVal.str "")])] rfl
    "activation" (by decide) (by decide) (by decide) (by decide) (by decide)

/-- C10: a string `traits.senses` is copied, not moved: after a successful
senses migration the original `traits.senses` property still holds the same
string. -/
theorem C10_senses_copied {cfg : List String} {s t : Obj} {original : String}
    (hsv : optView s "traits" "senses" = some (.str original))
    (h : CreatureTemplate.migrateSensesData cfg s = .ok t) :
    optView t "traits" "senses" = some (.str original) := by
  unfold optView
  rw [CreatureTemplate.migrateSensesData_frame h "traits" (by decide)]
  exact hsv

/-- C10 witness: the legacy string survives at `traits.senses` while its parsed
content is written to `attributes.senses`. -/
theorem C10_senses_copied_witness :
    optView [("traits", JVal.obj [("senses",
        JVal.str "Darkvision 60 ft, Blindsight 30 ft")]),
        ("attributes", JVal.obj [("senses", JVal.obj [("darkvision", JVal.num 60),
          ("blindsight", JVal.num 30)])])] "traits" "senses" =
      some (JVal.str "Darkvision 60 ft, Blindsight 30 ft") :=
  @C10_senses_copied ["darkvision", "blindsight", "tremorsense", "truesight"]
    [("traits", JVal.obj [("senses", JVal.str "Darkvision 60 ft, Blindsight 30 ft")])]
    [("traits", JVal.obj [("senses", JVal.str "Darkvision 60 ft, Blindsight 30 ft")]),
     ("attributes", JVal.obj [("senses", JVal.obj [("darkvision", JVal.num 60),
       ("blindsight", JVal.num 30)])])]
    "Darkvision 60 ft, Blindsight 30 ft" rfl rfl
